import Mathlib

/-!
# ECGiga: the quiz and the calculators of `script.js`

A shallow embedding of the quiz code of `src/script.js` (`setupQuiz`, `startQuiz` and the three
closures it creates: `showQuestion`, `window.checkAnswer`, `window.nextQuestion`) and of its two
calculators (`calculateSokolow`, `calculateQTc`).

The quiz keeps its state in the closure variables `questions`, `currentQuestion`, `score` of the
last `startQuiz` call and in the document: `checkAnswer` reads the ticked radio input from the
document and both handlers write markup into it. The embedding keeps both parts in one value,
`Page`. The markup is kept as data (`Content`): which of the three quiz screens is on display and
the values interpolated into it.
-/

namespace ECGiga

/-- One entry of a question bank of `window.quizData`. -/
structure Question where
  question : String
  options : List String
  correct : Nat
  explanation : String
deriving DecidableEq, Repr

/-- The bank under the key `basics` of the object literal in `setupQuiz`. -/
def basics : List Question :=
  [ { question := "Qual é a duração normal do intervalo PR?"
      options := ["0,06-0,10s", "0,12-0,20s", "0,20-0,30s", "0,30-0,40s"]
      correct := 1
      explanation := "O intervalo PR normal varia de 0,12 a 0,20 segundos, representando o tempo de condução atrioventricular." },
    { question := "Qual derivação melhor visualiza a parede inferior do coração?"
      options := ["V1-V2", "I, aVL", "II, III, aVF", "V5-V6"]
      correct := 2
      explanation := "As derivações II, III e aVF visualizam a parede inferior do ventrículo esquerdo." } ]

/-- The bank under the key `rhythms`. -/
def rhythms : List Question :=
  [ { question := "Na fibrilação atrial, qual característica é típica?"
      options := ["Ondas P regulares", "QRS alargado", "Ritmo irregular", "Bradicardia"]
      correct := 2
      explanation := "A fibrilação atrial caracteriza-se pela ausência de ondas P e ritmo irregular." } ]

/-- The bank under the key `hypertrophy`. -/
def hypertrophy : List Question :=
  [ { question := "Pelo critério de Sokolow-Lyon, HVE é diagnosticada quando:"
      options := ["SV1 + RV5/V6 ≥ 25mm", "SV1 + RV5/V6 ≥ 35mm", "RV5 ≥ 25mm", "SV1 ≥ 25mm"]
      correct := 1
      explanation := "O critério de Sokolow-Lyon para HVE é SV1 + RV5 ou RV6 ≥ 35mm." } ]

/-- The own properties of the object assigned to `window.quizData` by `setupQuiz`: the bank
under a key of the object literal, `none` for every other name. For such a name the lookup
`window.quizData[category]` is not one of the banks: it is a member inherited from
`Object.prototype` (see `inherited`) or `undefined`. -/
def quizData (category : String) : Option (List Question) :=
  if category = "basics" then some basics
  else if category = "rhythms" then some rhythms
  else if category = "hypertrophy" then some hypertrophy
  else none

/-- The members that `window.quizData`, an object literal, inherits from `Object.prototype`:
for the name of one, the value of its `length` property. The inherited functions have a
length, the object behind `__proto__` has none (`undefined`). None of them has an indexed
element, so that `questions[currentQuestion]` is `undefined` on each. The result is `none` for
every other name. -/
def inherited (category : String) : Option (Option Nat) :=
  if category = "constructor" then some (some 1)
  else if category = "hasOwnProperty" then some (some 1)
  else if category = "isPrototypeOf" then some (some 1)
  else if category = "propertyIsEnumerable" then some (some 1)
  else if category = "toLocaleString" then some (some 0)
  else if category = "toString" then some (some 0)
  else if category = "valueOf" then some (some 0)
  else if category = "__defineGetter__" then some (some 2)
  else if category = "__defineSetter__" then some (some 2)
  else if category = "__lookupGetter__" then some (some 1)
  else if category = "__lookupSetter__" then some (some 1)
  else if category = "__proto__" then some none
  else none

/-! ### JavaScript numbers

The code computes with IEEE 754 doubles. A finite double is a rational number, and a double
operation is the exact operation on rationals followed by `roundDouble`: rounding to the
nearest double, ties to even, with gradual underflow and overflow to an infinity. -/

/-- A computed JavaScript number as far as the code tells values apart: NaN, an infinity or a
finite double. The two zeros are one value here: the code compares, rounds and prints the
number, none of which tells them apart. -/
inductive Num where
  | nan
  | negInf
  | fin (q : ℚ)
  | posInf
deriving DecidableEq, Repr

/-- The comparison `x < c` with a finite constant; false on NaN. -/
def Num.lt (x : Num) (c : ℚ) : Bool :=
  match x with
  | Num.nan => false
  | Num.negInf => true
  | Num.fin q => decide (q < c)
  | Num.posInf => false

/-- The comparison `x >= c` with a finite constant; false on NaN. -/
def Num.ge (x : Num) (c : ℚ) : Bool :=
  match x with
  | Num.nan => false
  | Num.negInf => false
  | Num.fin q => decide (c ≤ q)
  | Num.posInf => true

/-- The function `Math.round`: the nearest integer, a half rounding up, which is
`floor (x + 1 / 2)`; NaN and the infinities are returned as they are. -/
def Math.round (x : Num) : Num :=
  match x with
  | Num.fin q => Num.fin ((⌊q + 1 / 2⌋ : Int) : ℚ)
  | other => other

/-- The nearest integer to `x`, a tie going to the even one. -/
def roundHalfEven (x : ℚ) : ℤ :=
  if x - ⌊x⌋ < 1 / 2 then ⌊x⌋
  else if 1 / 2 < x - ⌊x⌋ then ⌊x⌋ + 1
  else if ⌊x⌋ % 2 = 0 then ⌊x⌋ else ⌊x⌋ + 1

/-- The spacing of the doubles around `q`: `2 ^ (e - 52)` where `2 ^ e ≤ |q| < 2 ^ (e + 1)`,
with `e` not below -1022 (below `2 ^ (-1022)` the doubles are subnormal and equally
spaced). -/
def ulp (q : ℚ) : ℚ := 2 ^ (max (Int.log 2 |q|) (-1022) - 52)

/-- The double that an operation with exact result `q` returns: the multiple of `ulp q` nearest
to `q`, ties to even; an infinity when that multiple is `2 ^ 1024` or beyond. -/
def roundDouble (q : ℚ) : Num :=
  if 2 ^ 1024 ≤ (roundHalfEven (q / ulp q) : ℚ) * ulp q then Num.posInf
  else if (roundHalfEven (q / ulp q) : ℚ) * ulp q ≤ -2 ^ 1024 then Num.negInf
  else Num.fin ((roundHalfEven (q / ulp q) : ℚ) * ulp q)

/-- The function `Math.sqrt` on a double `x ≥ 0`: the double nearest to the square root, as
IEEE 754 requires of the square root operation. With `2 ^ (2 * k) ≤ x < 2 ^ (2 * k + 2)` the
root lies in `[2 ^ k, 2 ^ (k + 1))`, where the doubles are the multiples of `2 ^ (k - 52)`; the
integer square root gives the multiple below the root, and the root is compared with the
midpoint to the next one (it is never the midpoint itself). -/
def sqrtDouble (x : ℚ) : ℚ :=
  if x / (2 ^ (Int.log 2 x / 2 - 52)) ^ 2 <
      ((Nat.sqrt ⌊x / (2 ^ (Int.log 2 x / 2 - 52)) ^ 2⌋₊ : ℚ) + 1 / 2) ^ 2
  then (Nat.sqrt ⌊x / (2 ^ (Int.log 2 x / 2 - 52)) ^ 2⌋₊ : ℚ) * 2 ^ (Int.log 2 x / 2 - 52)
  else ((Nat.sqrt ⌊x / (2 ^ (Int.log 2 x / 2 - 52)) ^ 2⌋₊ : ℚ) + 1) *
    2 ^ (Int.log 2 x / 2 - 52)

/-- What the quiz has written into the document.

* `questionView number total q checked shownScore`: the markup of `showQuestion`: the heading
  "Questão number de total", the question `q` with one radio input per option (`checked` is the
  value of the ticked one, if any), the button "Responder" whose handler is
  `checkAnswer(q.correct)`, and the line "Pontuação: shownScore/total".
* `resultView number total isCorrect explanation nextLabel shownScore`: the same container after
  `checkAnswer` has replaced the inner markup of the `.question` element: the radio inputs and
  "Responder" are gone, the verdict, the explanation and a button labelled `nextLabel` whose
  handler is `nextQuestion()` are there; heading and score line are the ones rendered before.
* `finalView score total percentage msg category`: the markup of the last branch of
  `nextQuestion`, with the button "Refazer Quiz" whose handler is `startQuiz(category)`.
* `brokenFinalView score total percentage msg category`: the same final markup when the total
  or the percentage is no finite number, which happens only when `questions` is a member
  inherited from `Object.prototype`: `total` is `none` for "undefined", and the percentage is
  NaN or Infinity.
* `other`: anything else (no quiz markup). -/
inductive Content where
  | other
  | questionView (number total : Nat) (q : Question) (checked : Option Nat) (shownScore : Nat)
  | resultView (number total : Nat) (isCorrect : Bool) (explanation : String)
      (nextLabel : String) (shownScore : Nat)
  | finalView (score total percentage : Nat) (msg : String) (category : String)
  | brokenFinalView (score : Nat) (total : Option Nat) (percentage : Num) (msg : String)
      (category : String)
deriving DecidableEq, Repr

/-- The closure variables of the last `startQuiz` call, which `window.checkAnswer` and
`window.nextQuestion` share, together with the document. The variable `questions` holds
`window.quizData[category]`: the field `questions` is the bank when that is one, and `none`
otherwise, in which case `inherited category` tells an inherited member from `undefined`. -/
structure Page where
  category : String
  questions : Option (List Question)
  currentQuestion : Nat
  score : Nat
  content : Content
deriving DecidableEq, Repr

/-- How a call ends: it runs to its end (`done`), it shows an `alert` and returns early, or it
stops on an uncaught `TypeError` (a property read on `undefined`). -/
inductive Outcome where
  | done
  | alert (msg : String)
  | typeError
deriving DecidableEq, Repr

/-- The expression `Math.round((score / questions.length) * 100)` of `nextQuestion`, evaluated
as the code does: the double quotient, the double product by 100, then `Math.round`. The score
and the length are integers below `2 ^ 53`, so each is a double; the length is positive (no
bank is empty), so the result is a finite integer that is not negative. -/
def percentageOf (score length : Nat) : Nat :=
  match roundDouble ((score : ℚ) / (length : ℚ)) with
  | Num.fin ratio =>
    match Math.round (roundDouble (ratio * 100)) with
    | Num.fin percentage => ⌊percentage⌋.toNat
    | _ => 0
  | _ => 0

/-- The conditional expression inside `performance-msg` in `nextQuestion`. -/
def performanceMsg (percentage : Nat) : String :=
  if percentage ≥ 80 then "Excelente! Você domina o conteúdo."
  else if percentage ≥ 60 then "Bom trabalho! Revise alguns conceitos."
  else "Continue estudando. A prática leva à perfeição!"

/-- The same conditional expression on a percentage that is NaN or an infinity. -/
def performanceMsgNum (percentage : Num) : String :=
  if percentage.ge 80 then "Excelente! Você domina o conteúdo."
  else if percentage.ge 60 then "Bom trabalho! Revise alguns conceitos."
  else "Continue estudando. A prática leva à perfeição!"

/-- The comparison `currentQuestion < questions.length` of `nextQuestion` when `questions` is
an inherited member; false when the length is `undefined`. -/
def belowLength (currentQuestion : Nat) : Option Nat → Bool
  | some length => decide (currentQuestion < length)
  | none => false

/-- The final markup of `nextQuestion` when `questions` is an inherited member. With a positive
length it is the usual one. With length 0 the quotient `score / 0` is NaN for score 0 and
Infinity otherwise, with no length it is NaN; the product by 100 and `Math.round` keep
these. -/
def memberSummary (score : Nat) (length : Option Nat) (category : String) : Content :=
  match length with
  | some (n + 1) =>
    Content.finalView score (n + 1) (percentageOf score (n + 1))
      (performanceMsg (percentageOf score (n + 1))) category
  | some 0 =>
    Content.brokenFinalView score (some 0) (if score = 0 then Num.nan else Num.posInf)
      (performanceMsgNum (if score = 0 then Num.nan else Num.posInf)) category
  | none => Content.brokenFinalView score none Num.nan (performanceMsgNum Num.nan) category

/-- The label of the button rendered by `checkAnswer`. -/
def nextLabel (currentQuestion length : Nat) : String :=
  if currentQuestion + 1 < length then "Próxima Questão" else "Ver Resultado"

/-- The closure `showQuestion`: reads `questions[currentQuestion]` and replaces the content by
the question markup. Reading an element of `undefined`, or a field of an absent element, throws
before the document is written. -/
def showQuestion (p : Page) : Outcome × Page :=
  match p.questions with
  | none => (Outcome.typeError, p)
  | some qs =>
    match qs[p.currentQuestion]? with
    | none => (Outcome.typeError, p)
    | some q =>
      (Outcome.done,
        { p with content := Content.questionView (p.currentQuestion + 1) qs.length q none p.score })

/-- The function `startQuiz(category)`, called on a document showing `content`: binds fresh
closure variables (which replaces the two handlers) and calls `showQuestion`. -/
def startQuiz (content : Content) (category : String) : Outcome × Page :=
  showQuestion
    { category := category, questions := quizData category, currentQuestion := 0, score := 0,
      content := content }

/-- The handler `window.checkAnswer(correct)`. `document.querySelector` finds a ticked radio
input only in the question markup; without one the handler alerts and returns. Otherwise the
score is incremented on a match, then `questions[currentQuestion]` is read for the explanation
and the inner markup of `.question` is replaced by the result. -/
def checkAnswer (p : Page) (correct : Nat) : Outcome × Page :=
  match p.content with
  | Content.questionView number total _ (some value) shown =>
    let isCorrect : Bool := decide (value = correct)
    let p1 : Page := if isCorrect then { p with score := p.score + 1 } else p
    match p1.questions with
    | none => (Outcome.typeError, p1)
    | some qs =>
      match qs[p1.currentQuestion]? with
      | none => (Outcome.typeError, p1)
      | some q =>
        (Outcome.done,
          { p1 with
            content := Content.resultView number total isCorrect q.explanation
              (nextLabel p1.currentQuestion qs.length) shown })
  | _ => (Outcome.alert "Selecione uma resposta!", p)

/-- The handler `window.nextQuestion()`: increments `currentQuestion`, then shows the next
question or, past the last one, the final markup. There is no test of what is on display. When
`questions` is `undefined` the read of its length throws; when it is an inherited member the
handler runs on with the length of that member. -/
def nextQuestion (p : Page) : Outcome × Page :=
  let p1 : Page := { p with currentQuestion := p.currentQuestion + 1 }
  match p1.questions with
  | none =>
    match inherited p1.category with
    | none => (Outcome.typeError, p1)
    | some length =>
      if belowLength p1.currentQuestion length then showQuestion p1
      else (Outcome.done, { p1 with content := memberSummary p1.score length p1.category })
  | some qs =>
    if p1.currentQuestion < qs.length then showQuestion p1
    else
      let percentage := percentageOf p1.score qs.length
      (Outcome.done,
        { p1 with
          content := Content.finalView p1.score qs.length percentage (performanceMsg percentage)
            p1.category })

/-- The user ticks the radio input of option `i`. Radio inputs exist only in the question
markup, one per option. -/
def tick (i : Nat) (p : Page) : Page :=
  match p.content with
  | Content.questionView number total q _ shown =>
    if i < q.options.length then
      { p with content := Content.questionView number total q (some i) shown }
    else p
  | _ => p

/-- The argument of `checkAnswer` in the handler of the rendered "Responder" button. -/
def responderArg : Content → Option Nat
  | Content.questionView _ _ q _ _ => some q.correct
  | _ => none

/-- A call the page can receive once `startQuiz` has bound the handlers: the user ticking an
option, `checkAnswer(correct)` and `nextQuestion()`. -/
inductive Call where
  | tick (i : Nat)
  | checkAnswer (correct : Nat)
  | nextQuestion
deriving DecidableEq, Repr

/-- Run one call. -/
def call (p : Page) : Call → Outcome × Page
  | Call.tick i => (Outcome.done, tick i p)
  | Call.checkAnswer correct => checkAnswer p correct
  | Call.nextQuestion => nextQuestion p

/-- Run a sequence of calls, one after the other. An alert or an uncaught error ends one call,
not the page: the next call runs on the state the previous one left. -/
def calls (p : Page) (cs : List Call) : Page :=
  cs.foldl (fun s c => (call s c).2) p

/-- One round of the quiz on the displayed question: the user ticks option `sel` and presses
"Responder" (handler `checkAnswer(q.correct)`), then `nextQuestion()` runs. The result is `none`
when no question is on display or when one of the two handlers does not run to its end. -/
def answerAndAdvance (p : Page) (sel : Nat) : Option Page :=
  match responderArg p.content with
  | none => none
  | some correct =>
    match checkAnswer (tick sel p) correct with
    | (Outcome.done, p1) =>
      match nextQuestion p1 with
      | (Outcome.done, p2) => some p2
      | _ => none
    | _ => none

/-- One round per selected option, in order. -/
def playRounds (p : Page) : List Nat → Option Page
  | [] => some p
  | sel :: sels => (answerAndAdvance p sel).bind (fun p1 => playRounds p1 sels)

/-- The number of rounds whose selected option is the correct option of the question of that
round. -/
def correctCount (sels : List Nat) (bank : List Question) : Nat :=
  ((sels.zip bank).filter (fun x => decide (x.1 = x.2.correct))).length

/-- Whether the question markup (radio inputs and "Responder") is on display. -/
def showsQuestion : Content → Bool
  | Content.questionView _ _ _ _ _ => true
  | _ => false

/-- Whether the result markup (verdict, explanation, button of `nextQuestion()`) is on
display. -/
def showsResult : Content → Bool
  | Content.resultView _ _ _ _ _ _ => true
  | _ => false

/-- Whether the markup on display holds the control that issues the call: the radio input of
option `i` and the button "Responder" (handler `checkAnswer(q.correct)`) are in the question
markup, the button with handler `nextQuestion()` is in the result markup only. -/
def rendered : Content → Call → Bool
  | Content.questionView _ _ q _ _, Call.tick i => decide (i < q.options.length)
  | Content.questionView _ _ q _ _, Call.checkAnswer correct => decide (correct = q.correct)
  | Content.resultView _ _ _ _ _ _, Call.nextQuestion => true
  | _, _ => false

/-- The state invariant of a running quiz on `bank`: the closure holds the bank; the score is
at most `currentQuestion + 1`, and at most `currentQuestion` unless a result is on display; a
question or a result is on display only for an index inside the bank. -/
def Sound (p : Page) (bank : List Question) : Prop :=
  p.questions = some bank ∧
  p.score ≤ p.currentQuestion + 1 ∧
  (showsResult p.content = false → p.score ≤ p.currentQuestion) ∧
  (showsQuestion p.content = true ∨ showsResult p.content = true →
    p.currentQuestion < bank.length)

/-- Whether the final markup of `nextQuestion` (the summary) is on display. -/
def showsSummary : Content → Bool
  | Content.finalView _ _ _ _ _ => true
  | Content.brokenFinalView _ _ _ _ _ => true
  | _ => false

/-- Whether no `nextQuestion()` of the sequence is called while the summary is on display.
Ticks and `checkAnswer` calls are not restricted, and neither is a `nextQuestion()` called on a
question or on a result. -/
def staysOffSummary : Page → List Call → Bool
  | _, [] => true
  | p, Call.nextQuestion :: cs =>
    !showsSummary p.content && staysOffSummary (nextQuestion p).2 cs
  | p, c :: cs => staysOffSummary (call p c).2 cs

/-- The text of the `.score` line of the quiz container, "Pontuação: score/length", as
`showQuestion` wrote it; the final markup has no such line. -/
def scoreLine : Content → Option String
  | Content.questionView _ total _ _ shown =>
    some ("Pontuação: " ++ toString shown ++ "/" ++ toString total)
  | Content.resultView _ total _ _ _ shown =>
    some ("Pontuação: " ++ toString shown ++ "/" ++ toString total)
  | _ => none

/-- Pressing "Refazer Quiz": the handler of the button of the final markup is
`startQuiz(category)`, with the category written into the markup by `nextQuestion`. The result
is `none` when the button is not on display. -/
def refazerQuiz (p : Page) : Option (Outcome × Page) :=
  match p.content with
  | Content.finalView _ _ _ _ category => some (startQuiz p.content category)
  | Content.brokenFinalView _ _ _ _ category => some (startQuiz p.content category)
  | _ => none

/-! ### The calculators

`calculateSokolow` and `calculateQTc` read number inputs with `parseFloat` and compute in double
precision. A parsed input is `none` for NaN (the field is empty or holds no number) and a
rational otherwise: a number input holds no infinite value, and every finite double is a
rational. The two functions take the arithmetic they use as an argument: the sum for
`calculateSokolow`, the expression `qt / Math.sqrt(rr / 1000)` for `calculateQTc`. The code
runs them with the double operations, `addDouble` and `bazettDouble`; what is proved for every
argument holds for these. -/

/-- The expression `x || 0` on a parsed input: NaN and zero are falsy and give 0. -/
def orZero : Option ℚ → ℚ
  | none => 0
  | some q => if q = 0 then 0 else q

/-- What `calculateSokolow` writes into `#sokolow-result`: the total (followed by "mm"), the
class of the second paragraph and its text. -/
structure SokolowResult where
  total : Num
  cssClass : String
  message : String
deriving DecidableEq

/-- The function `calculateSokolow`, on the parsed values of the inputs `sv1` and `rv5`;
`add` is the double addition. It has no early return: it always writes its result. -/
def calculateSokolow (add : ℚ → ℚ → Num) (sv1 rv5 : Option ℚ) :
    Outcome × Option SokolowResult :=
  let a := orZero sv1
  let b := orZero rv5
  let total := add a b
  (Outcome.done,
    some
      { total := total
        cssClass := if total.ge 35 then "positive" else "negative"
        message :=
          if total.ge 35 then "✓ Critério positivo para HVE" else "✗ Critério negativo para HVE" })

/-- The chain of comparisons of `calculateQTc` that yields the interpretation of `qtc` for the
value of the `gender` select. -/
def interpretation (qtc : Num) (gender : String) : String :=
  let maleLimit : ℚ := if gender = "male" then 450 else 470
  let femaleLimit : ℚ := if gender = "male" then 470 else 480
  if qtc.lt 350 then "QT curto"
  else if qtc.lt maleLimit then "Normal"
  else if qtc.lt femaleLimit then "Limítrofe"
  else "Prolongado"

/-- What `calculateQTc` writes into `#qtc-result`: `Math.round(qtc)` (followed by "ms") and the
interpretation. -/
structure QTcResult where
  shown : Num
  interpretation : String
deriving DecidableEq

/-- The function `calculateQTc`, on the parsed values of the inputs `qt-measured` and
`rr-interval` and the value of the select `gender`; `bazett qt rr` is the double that
`qt / Math.sqrt(rr / 1000)` evaluates to. The guard `!qt || !rr` holds when a parsed value is
NaN or zero: the handler then alerts and returns without writing a result. -/
def calculateQTc (bazett : ℚ → ℚ → Num) (qt rr : Option ℚ) (gender : String) :
    Outcome × Option QTcResult :=
  match qt, rr with
  | some qtValue, some rrValue =>
    if qtValue = 0 ∨ rrValue = 0 then (Outcome.alert "Preencha todos os campos!", none)
    else
      let qtc := bazett qtValue rrValue
      (Outcome.done,
        some { shown := Math.round qtc, interpretation := interpretation qtc gender })
  | _, _ => (Outcome.alert "Preencha todos os campos!", none)

/-- The double addition `a + b` of two finite doubles. -/
def addDouble (a b : ℚ) : Num := roundDouble (a + b)

/-- The expression `qt / Math.sqrt(rr / 1000)` on finite doubles, operation by operation:
the double quotient `rr / 1000`, its correctly rounded root, the double quotient of `qt` by
the root. When the first quotient is negative the root is NaN, and so is the result. When it
is a zero (of the sign of `rr`, by underflow) the root is that zero and the division by it
gives an infinity, or NaN for `qt = 0`. The first quotient is never infinite; the last two
cases only complete the match (the root of Infinity is Infinity, that of -Infinity is NaN). -/
def bazettDouble (qt rr : ℚ) : Num :=
  match roundDouble (rr / 1000) with
  | Num.fin x =>
    if x < 0 then Num.nan
    else if x = 0 then
      if qt = 0 then Num.nan
      else if (0 < qt ∧ 0 ≤ rr) ∨ (qt < 0 ∧ rr < 0) then Num.posInf
      else Num.negInf
    else roundDouble (qt / sqrtDouble x)
  | Num.posInf => Num.fin 0
  | _ => Num.nan

/-- The double addition on operands whose exact sum is a double, such as integers of small
magnitude or zero and any double: the sum is computed without rounding. -/
def addExact (a b : ℚ) : Num := Num.fin (a + b)

/-- The double evaluation of `qt / Math.sqrt(rr / 1000)` for `rr = 1000`: the quotient is 1,
its square root is 1 and `qt / 1` is `qt`, each without rounding. Meant for that value of `rr`
only; the definition does not look at `rr`. -/
def bazettUnitRR (qt _rr : ℚ) : Num := Num.fin qt

/-! ## Helper facts -/

theorem quizData_cases {category : String} {bank : List Question}
    (h : quizData category = some bank) :
    bank = basics ∨ bank = rhythms ∨ bank = hypertrophy := by
  unfold quizData at h
  split_ifs at h <;> simp_all

theorem quizData_ne_nil {category : String} {bank : List Question}
    (h : quizData category = some bank) : 0 < bank.length := by
  rcases quizData_cases h with rfl | rfl | rfl <;> decide

theorem quizData_options {category : String} {bank : List Question}
    (h : quizData category = some bank) :
    ∀ q ∈ bank, q.options.length = 4 ∧ q.correct < 4 := by
  rcases quizData_cases h with rfl | rfl | rfl <;> decide

theorem checkAnswer_of_checked (p : Page) (bank : List Question) (q : Question)
    (number total shown value correct : Nat) (q0 : Question)
    (hq : p.questions = some bank) (hcur : bank[p.currentQuestion]? = some q)
    (hview : p.content = Content.questionView number total q0 (some value) shown) :
    checkAnswer p correct =
      (Outcome.done,
        { p with
          score := p.score + (if value = correct then 1 else 0)
          content := Content.resultView number total (decide (value = correct)) q.explanation
            (nextLabel p.currentQuestion bank.length) shown }) := by
  unfold checkAnswer
  rw [hview]
  by_cases hv : value = correct <;> simp [hv, hq, hcur]

theorem checkAnswer_of_no_radio (p : Page) (correct : Nat)
    (h : ∀ number total q value shown,
      p.content ≠ Content.questionView number total q (some value) shown) :
    checkAnswer p correct = (Outcome.alert "Selecione uma resposta!", p) := by
  unfold checkAnswer
  split
  · rename_i number total q value shown hc
    exact absurd hc (h number total q value shown)
  · rfl

theorem checkAnswer_done_content (p : Page) (correct : Nat)
    (h : (checkAnswer p correct).1 = Outcome.done) :
    ∃ number total b e l shown,
      (checkAnswer p correct).2.content = Content.resultView number total b e l shown := by
  cases hc : p.content with
  | questionView number total q0 checked shown =>
    cases checked with
    | none =>
      rw [checkAnswer_of_no_radio p correct (by intro a b c d e; rw [hc]; simp)] at h
      simp at h
    | some value =>
      cases hq : p.questions with
      | none =>
        exfalso
        unfold checkAnswer at h
        rw [hc] at h
        by_cases hv : value = correct <;> simp [hv, hq] at h
      | some bank =>
        cases hcur : bank[p.currentQuestion]? with
        | none =>
          exfalso
          unfold checkAnswer at h
          rw [hc] at h
          by_cases hv : value = correct <;> simp [hv, hq, hcur] at h
        | some q =>
          rw [checkAnswer_of_checked p bank q number total shown value correct q0 hq hcur hc]
          exact ⟨_, _, _, _, _, _, rfl⟩
  | other =>
    rw [checkAnswer_of_no_radio p correct (by intro a b c d e; rw [hc]; simp)] at h
    simp at h
  | resultView a b c d e f =>
    rw [checkAnswer_of_no_radio p correct (by intro a b c d e; rw [hc]; simp)] at h
    simp at h
  | finalView a b c d e =>
    rw [checkAnswer_of_no_radio p correct (by intro a b c d e; rw [hc]; simp)] at h
    simp at h
  | brokenFinalView a b c d e =>
    rw [checkAnswer_of_no_radio p correct (by intro a b c d e; rw [hc]; simp)] at h
    simp at h

theorem nextQuestion_more (p : Page) (bank : List Question) (q : Question)
    (hq : p.questions = some bank) (hnext : bank[p.currentQuestion + 1]? = some q) :
    nextQuestion p =
      (Outcome.done,
        { p with
          currentQuestion := p.currentQuestion + 1
          content := Content.questionView (p.currentQuestion + 1 + 1) bank.length q none p.score }) := by
  have hlt : p.currentQuestion + 1 < bank.length := by
    by_contra hge
    rw [List.getElem?_eq_none (by omega)] at hnext
    simp at hnext
  simp [nextQuestion, showQuestion, hq, hnext, hlt]

theorem nextQuestion_last (p : Page) (bank : List Question)
    (hq : p.questions = some bank) (hlast : bank.length ≤ p.currentQuestion + 1) :
    nextQuestion p =
      (Outcome.done,
        { p with
          currentQuestion := p.currentQuestion + 1
          content := Content.finalView p.score bank.length (percentageOf p.score bank.length)
            (performanceMsg (percentageOf p.score bank.length)) p.category }) := by
  have hlt : ¬ p.currentQuestion + 1 < bank.length := by omega
  simp [nextQuestion, hq, hlt]

theorem nextQuestion_done (p : Page) (bank : List Question)
    (hq : p.questions = some bank) :
    nextQuestion p = (Outcome.done, (nextQuestion p).2) := by
  by_cases hlt : p.currentQuestion + 1 < bank.length
  · rw [nextQuestion_more p bank _ hq (List.getElem?_eq_getElem hlt)]
  · rw [nextQuestion_last p bank hq (by omega)]

theorem correctCount_cons (sel : Nat) (sels : List Nat) (q : Question) (qs : List Question) :
    correctCount (sel :: sels) (q :: qs) =
      (if sel = q.correct then 1 else 0) + correctCount sels qs := by
  unfold correctCount
  by_cases h : sel = q.correct
  · simp [List.filter_cons, h]
    omega
  · simp [List.filter_cons, h]

theorem correctCount_le (sels : List Nat) (bank : List Question) :
    correctCount sels bank ≤ bank.length := by
  unfold correctCount
  calc ((sels.zip bank).filter (fun x => decide (x.1 = x.2.correct))).length
      ≤ (sels.zip bank).length := List.length_filter_le _ _
    _ ≤ bank.length := by simp [List.length_zip]

theorem answerAndAdvance_eq (p : Page) (bank : List Question) (q : Question)
    (number total shown sel : Nat) (checked : Option Nat)
    (hq : p.questions = some bank) (hcur : bank[p.currentQuestion]? = some q)
    (hview : p.content = Content.questionView number total q checked shown)
    (hsel : sel < q.options.length) :
    answerAndAdvance p sel =
      some (nextQuestion
        { p with
          score := p.score + (if sel = q.correct then 1 else 0)
          content := Content.resultView number total (decide (sel = q.correct)) q.explanation
            (nextLabel p.currentQuestion bank.length) shown }).2 := by
  have ht : tick sel p = { p with content := Content.questionView number total q (some sel) shown } := by
    simp [tick, hview, hsel]
  have hc := checkAnswer_of_checked (tick sel p) bank q number total shown sel q.correct q
    (by rw [ht]; exact hq) (by rw [ht]; exact hcur) (by rw [ht])
  unfold answerAndAdvance
  rw [hview]
  simp only [responderArg]
  rw [hc, ht]
  simp only []
  have hd := nextQuestion_done
    { p with
      score := p.score + (if sel = q.correct then 1 else 0)
      content := Content.resultView number total (decide (sel = q.correct)) q.explanation
        (nextLabel p.currentQuestion bank.length) shown } bank hq
  rw [hd]

theorem playRounds_spec (bank : List Question)
    (hopt : ∀ q ∈ bank, q.options.length = 4) :
    ∀ (sels : List Nat) (p : Page) (q : Question) (number total shown : Nat)
      (checked : Option Nat),
      p.questions = some bank → bank[p.currentQuestion]? = some q →
      p.content = Content.questionView number total q checked shown →
      p.currentQuestion + sels.length = bank.length → (∀ x ∈ sels, x < 4) →
      ∃ r, playRounds p sels = some r ∧ r.currentQuestion = bank.length ∧
        r.score = p.score + correctCount sels (bank.drop p.currentQuestion) ∧
        r.content = Content.finalView r.score bank.length (percentageOf r.score bank.length)
          (performanceMsg (percentageOf r.score bank.length)) p.category := by
  intro sels
  induction sels with
  | nil =>
    intro p q number total shown checked _ hcur _ hlen _
    have hlt : p.currentQuestion < bank.length := by
      by_contra hge
      rw [List.getElem?_eq_none (by omega)] at hcur
      simp at hcur
    simp at hlen
    omega
  | cons sel rest ih =>
    intro p q number total shown checked hq hcur hview hlen hvalid
    have hlt : p.currentQuestion < bank.length := by
      by_contra hge
      rw [List.getElem?_eq_none (by omega)] at hcur
      simp at hcur
    have hqe : bank[p.currentQuestion] = q := by
      rw [List.getElem?_eq_getElem hlt] at hcur
      exact Option.some.inj hcur
    have hmem : q ∈ bank := by
      rw [← hqe]
      exact List.getElem_mem hlt
    have hsel : sel < q.options.length := by
      rw [(hopt q hmem)]
      exact hvalid sel (List.mem_cons_self _ _)
    have hdrop : bank.drop p.currentQuestion = q :: bank.drop (p.currentQuestion + 1) := by
      rw [← hqe]
      exact List.drop_eq_getElem_cons hlt
    have hstep := answerAndAdvance_eq p bank q number total shown sel checked hq hcur hview hsel
    simp only [playRounds, hstep, Option.bind_some]
    rw [hdrop, correctCount_cons]
    by_cases hmore : p.currentQuestion + 1 < bank.length
    · rw [nextQuestion_more
        { p with
          score := p.score + (if sel = q.correct then 1 else 0)
          content := Content.resultView number total (decide (sel = q.correct)) q.explanation
            (nextLabel p.currentQuestion bank.length) shown }
        bank _ hq (List.getElem?_eq_getElem hmore)]
      obtain ⟨r, h1, h2, h3, h4⟩ := ih
        { p with
          score := p.score + (if sel = q.correct then 1 else 0)
          currentQuestion := p.currentQuestion + 1
          content := Content.questionView (p.currentQuestion + 1 + 1) bank.length
            bank[p.currentQuestion + 1] none (p.score + (if sel = q.correct then 1 else 0)) }
        bank[p.currentQuestion + 1] _ _ _ none hq (List.getElem?_eq_getElem hmore) rfl
        (by simp at hlen ⊢; omega)
        (fun x hx => hvalid x (List.mem_cons_of_mem _ hx))
      refine ⟨r, h1, h2, ?_, h4⟩
      rw [h3]
      simp only []
      omega
    · have hrest : rest = [] := by
        apply List.eq_nil_of_length_eq_zero
        simp at hlen
        omega
      subst hrest
      rw [nextQuestion_last
        { p with
          score := p.score + (if sel = q.correct then 1 else 0)
          content := Content.resultView number total (decide (sel = q.correct)) q.explanation
            (nextLabel p.currentQuestion bank.length) shown }
        bank hq (by simpa using hmore)]
      refine ⟨_, rfl, ?_, ?_, rfl⟩
      · simp only []
        omega
      · simp [correctCount]

theorem tick_fields (i : Nat) (p : Page) :
    (tick i p).questions = p.questions ∧ (tick i p).currentQuestion = p.currentQuestion ∧
    (tick i p).score = p.score ∧ showsQuestion (tick i p).content = showsQuestion p.content ∧
    showsResult (tick i p).content = showsResult p.content := by
  unfold tick
  split
  · rename_i number total q checked shown hview
    split_ifs
    · simp [hview, showsQuestion, showsResult]
    · exact ⟨rfl, rfl, rfl, rfl, rfl⟩
  · exact ⟨rfl, rfl, rfl, rfl, rfl⟩

theorem checkAnswer_fields (p : Page) (correct : Nat) (bank : List Question)
    (hq : p.questions = some bank)
    (hlt : showsQuestion p.content = true → p.currentQuestion < bank.length) :
    (checkAnswer p correct).2.questions = p.questions ∧
    (checkAnswer p correct).2.currentQuestion = p.currentQuestion ∧
    (((checkAnswer p correct).2.score = p.score ∧
        (checkAnswer p correct).2.content = p.content) ∨
      (showsQuestion p.content = true ∧ showsResult (checkAnswer p correct).2.content = true ∧
        (checkAnswer p correct).2.score ≤ p.score + 1)) := by
  cases hc : p.content with
  | questionView number total q0 checked shown =>
    cases checked with
    | none =>
      rw [checkAnswer_of_no_radio p correct (by intro a b c d e; rw [hc]; simp)]
      exact ⟨rfl, rfl, Or.inl ⟨rfl, hc⟩⟩
    | some value =>
      have hlt2 : p.currentQuestion < bank.length := hlt (by rw [hc]; rfl)
      have hcur : bank[p.currentQuestion]? = some bank[p.currentQuestion] :=
        List.getElem?_eq_getElem hlt2
      rw [checkAnswer_of_checked p bank _ number total shown value correct q0 hq hcur hc]
      refine ⟨rfl, rfl, Or.inr ⟨rfl, rfl, ?_⟩⟩
      simp only []
      split_ifs <;> omega
  | other =>
    rw [checkAnswer_of_no_radio p correct (by intro a b c d e; rw [hc]; simp)]
    exact ⟨rfl, rfl, Or.inl ⟨rfl, hc⟩⟩
  | resultView a b c d e f =>
    rw [checkAnswer_of_no_radio p correct (by intro a b c d e; rw [hc]; simp)]
    exact ⟨rfl, rfl, Or.inl ⟨rfl, hc⟩⟩
  | finalView a b c d e =>
    rw [checkAnswer_of_no_radio p correct (by intro a b c d e; rw [hc]; simp)]
    exact ⟨rfl, rfl, Or.inl ⟨rfl, hc⟩⟩
  | brokenFinalView a b c d e =>
    rw [checkAnswer_of_no_radio p correct (by intro a b c d e; rw [hc]; simp)]
    exact ⟨rfl, rfl, Or.inl ⟨rfl, hc⟩⟩

theorem nextQuestion_fields (p : Page) (bank : List Question)
    (hq : p.questions = some bank) :
    (nextQuestion p).2.questions = p.questions ∧
    (nextQuestion p).2.currentQuestion = p.currentQuestion + 1 ∧
    (nextQuestion p).2.score = p.score ∧
    showsResult (nextQuestion p).2.content = false ∧
    (showsQuestion (nextQuestion p).2.content = true →
      p.currentQuestion + 1 < bank.length) := by
  by_cases hlt : p.currentQuestion + 1 < bank.length
  · rw [nextQuestion_more p bank _ hq (List.getElem?_eq_getElem hlt)]
    exact ⟨rfl, rfl, rfl, rfl, fun _ => hlt⟩
  · rw [nextQuestion_last p bank hq (by omega)]
    refine ⟨rfl, rfl, rfl, rfl, fun h => ?_⟩
    simp [showsQuestion] at h

theorem startQuiz_registered (content : Content) (category : String) (bank : List Question)
    (hreg : quizData category = some bank) :
    ∃ q, bank[0]? = some q ∧
      startQuiz content category =
        (Outcome.done,
          { category := category, questions := some bank, currentQuestion := 0, score := 0,
            content := Content.questionView 1 bank.length q none 0 }) := by
  have hpos := quizData_ne_nil hreg
  have h0 : bank[0]? = some bank[0] := List.getElem?_eq_getElem hpos
  exact ⟨bank[0], h0, by simp [startQuiz, showQuestion, hreg, h0]⟩

theorem sound_start (content : Content) (category : String) (bank : List Question)
    (hreg : quizData category = some bank) :
    Sound (startQuiz content category).2 bank := by
  obtain ⟨q, _, hs⟩ := startQuiz_registered content category bank hreg
  rw [hs]
  refine ⟨rfl, by simp, by simp, fun _ => quizData_ne_nil hreg⟩

theorem sound_call (p : Page) (bank : List Question) (c : Call) (h : Sound p bank) :
    Sound (call p c).2 bank := by
  obtain ⟨hq, h1, h2, h3⟩ := h
  cases c with
  | tick i =>
    obtain ⟨t1, t2, t3, t4, t5⟩ := tick_fields i p
    simp only [call]
    refine ⟨by rw [t1]; exact hq, by omega, ?_, ?_⟩
    · rw [t5, t2, t3]; exact h2
    · rw [t4, t5, t2]; exact h3
  | checkAnswer correct =>
    obtain ⟨c1, c2, c3⟩ := checkAnswer_fields p correct bank hq (fun hs => h3 (Or.inl hs))
    simp only [call]
    rcases c3 with ⟨cs, cc⟩ | ⟨cq, cr, cs⟩
    · refine ⟨by rw [c1]; exact hq, by omega, ?_, ?_⟩
      · rw [cc, c2, cs]; exact h2
      · rw [cc, c2]; exact h3
    · have hnr : showsResult p.content = false := by
        cases hc : p.content <;> simp [hc, showsQuestion, showsResult] at cq ⊢
      have := h2 hnr
      refine ⟨by rw [c1]; exact hq, by omega, ?_, ?_⟩
      · intro hf
        rw [cr] at hf
        simp at hf
      · intro _
        rw [c2]
        exact h3 (Or.inl cq)
  | nextQuestion =>
    obtain ⟨n1, n2, n3, n4, n5⟩ := nextQuestion_fields p bank hq
    simp only [call]
    refine ⟨by rw [n1]; exact hq, by omega, fun _ => by omega, ?_⟩
    rintro (hs | hr)
    · have := n5 hs
      omega
    · rw [n4] at hr
      simp at hr

theorem sound_calls (bank : List Question) (cs : List Call) :
    ∀ p : Page, Sound p bank → Sound (calls p cs) bank := by
  induction cs with
  | nil => intro p h; exact h
  | cons c cs ih =>
    intro p h
    simp only [calls, List.foldl_cons]
    exact ih _ (sound_call p bank c h)

/-! ### Double arithmetic -/

theorem roundHalfEven_near (x : ℚ) : |(roundHalfEven x : ℚ) - x| ≤ 1 / 2 := by
  have h1 := Int.floor_le x
  have h2 := Int.lt_floor_add_one x
  unfold roundHalfEven
  split_ifs with a b c
  · rw [abs_le]; constructor <;> linarith
  · push_cast; rw [abs_le]; constructor <;> linarith
  · rw [abs_le]; constructor <;> linarith
  · push_cast; rw [abs_le]; constructor <;> linarith

theorem roundHalfEven_eq (x : ℚ) (m : ℤ) (h : |x - m| < 1 / 2) : roundHalfEven x = m := by
  rw [abs_lt] at h
  have hn := roundHalfEven_near x
  rw [abs_le] at hn
  have h3 : ((roundHalfEven x - m : ℤ) : ℚ) < 1 := by push_cast; linarith
  have h4 : (-1 : ℚ) < ((roundHalfEven x - m : ℤ) : ℚ) := by push_cast; linarith
  have h5 : roundHalfEven x - m < 1 := by exact_mod_cast h3
  have h6 : -1 < roundHalfEven x - m := by exact_mod_cast h4
  omega

theorem ulp_eq (q : ℚ) (e : ℤ) (he : -1022 ≤ e) (hlo : (2 : ℚ) ^ e ≤ |q|)
    (hhi : |q| < (2 : ℚ) ^ (e + 1)) : ulp q = 2 ^ (e - 52) := by
  have hpos : 0 < |q| := lt_of_lt_of_le (by positivity) hlo
  have h1 : e ≤ Int.log 2 |q| := (Int.zpow_le_iff_le_log (by norm_num) hpos).1 (by exact_mod_cast hlo)
  have h2 : Int.log 2 |q| < e + 1 := (Int.lt_zpow_iff_log_lt (by norm_num) hpos).1 (by exact_mod_cast hhi)
  have h3 : Int.log 2 |q| = e := by omega
  unfold ulp
  rw [h3, max_eq_left he]

theorem ulp_pos (q : ℚ) : 0 < ulp q := by
  unfold ulp
  positivity

theorem roundDouble_eq (q : ℚ) (e m : ℤ) (he : -1022 ≤ e) (hlo : (2 : ℚ) ^ e ≤ |q|)
    (hhi : |q| < (2 : ℚ) ^ (e + 1)) (hm : |q / 2 ^ (e - 52) - m| < 1 / 2)
    (hfin : |(m : ℚ) * 2 ^ (e - 52)| < 2 ^ 1024) :
    roundDouble q = Num.fin ((m : ℚ) * 2 ^ (e - 52)) := by
  have hu := ulp_eq q e he hlo hhi
  have hr : roundHalfEven (q / ulp q) = m := by
    rw [hu]
    exact roundHalfEven_eq _ _ hm
  rw [abs_lt] at hfin
  unfold roundDouble
  rw [hr, hu]
  rw [if_neg (by linarith), if_neg (by linarith)]

theorem roundDouble_zero : roundDouble 0 = Num.fin 0 := by
  unfold roundDouble
  have h : roundHalfEven (0 / ulp 0) = 0 := by
    apply roundHalfEven_eq
    simp
  rw [h]
  norm_num

theorem roundDouble_accurate (q : ℚ) (hlo : (2 : ℚ) ^ (-1022 : ℤ) ≤ |q|)
    (hhi : |q| < (2 : ℚ) ^ (1023 : ℤ)) :
    ∃ r : ℚ, roundDouble q = Num.fin r ∧ |r - q| ≤ |q| / 2 ^ 53 ∧ (0 ≤ q → 0 ≤ r) := by
  have hpos : 0 < |q| := lt_of_lt_of_le (by positivity) hlo
  have h1 : (-1022 : ℤ) ≤ Int.log 2 |q| :=
    (Int.zpow_le_iff_le_log (by norm_num) hpos).1 (by exact_mod_cast hlo)
  have h2 : Int.log 2 |q| < 1023 :=
    (Int.lt_zpow_iff_log_lt (by norm_num) hpos).1 (by exact_mod_cast hhi)
  have hle : ((2 : ℕ) : ℚ) ^ Int.log 2 |q| ≤ |q| := Int.zpow_log_le_self (by norm_num) hpos
  have hu : ulp q = 2 ^ (Int.log 2 |q| - 52) := by
    unfold ulp
    rw [max_eq_left h1]
  have hupos := ulp_pos q
  -- half an ulp is at most |q| / 2 ^ 53
  have hhalf : ulp q / 2 ≤ |q| / 2 ^ 53 := by
    rw [hu, zpow_sub₀ (by norm_num)]
    have : (2 : ℚ) ^ Int.log 2 |q| ≤ |q| := by exact_mod_cast hle
    rw [div_div, div_le_div_iff₀ (by positivity) (by positivity)]
    norm_num
    linarith
  have hnear := roundHalfEven_near (q / ulp q)
  have herr : |(roundHalfEven (q / ulp q) : ℚ) * ulp q - q| ≤ ulp q / 2 := by
    have : (roundHalfEven (q / ulp q) : ℚ) * ulp q - q =
        ((roundHalfEven (q / ulp q) : ℚ) - q / ulp q) * ulp q := by
      field_simp
    rw [this, abs_mul, abs_of_pos hupos]
    calc |(roundHalfEven (q / ulp q) : ℚ) - q / ulp q| * ulp q ≤ 1 / 2 * ulp q := by
          exact mul_le_mul_of_nonneg_right hnear hupos.le
      _ = ulp q / 2 := by ring
  have herr2 := le_trans herr hhalf
  have hsmall : |q| / 2 ^ 53 ≤ |q| := by
    apply div_le_self hpos.le
    norm_num
  have hbig : (2 : ℚ) ^ (1023 : ℤ) * 2 = 2 ^ 1024 := by norm_num
  rw [abs_le] at herr2
  have hq := abs_lt.1 hhi
  have habs := neg_abs_le q
  have habs2 := le_abs_self q
  refine ⟨(roundHalfEven (q / ulp q) : ℚ) * ulp q, ?_, abs_le.2 herr2, ?_⟩
  · unfold roundDouble
    rw [if_neg (by linarith), if_neg (by linarith)]
  · intro h0
    rw [abs_of_nonneg h0] at herr2 hsmall
    linarith

theorem sqrtDouble_accurate (x : ℚ) (hx : 0 < x) :
    0 < sqrtDouble x ∧
    sqrtDouble x ^ 2 * (1 - 1 / 2 ^ 53) ^ 2 ≤ x ∧
    x ≤ sqrtDouble x ^ 2 * (1 + 1 / 2 ^ 53) ^ 2 := by
  set k : ℤ := Int.log 2 x / 2 with hk
  set u : ℚ := 2 ^ (k - 52) with hu
  have hupos : 0 < u := by rw [hu]; positivity
  set y : ℚ := x / u ^ 2 with hy
  set m : ℕ := Nat.sqrt ⌊y⌋₊ with hm
  have hxy : x = y * u ^ 2 := by
    rw [hy]; field_simp
  have hypos : 0 < y := by rw [hy]; positivity
  -- 2 ^ 104 ≤ y
  have hlog : ((2 : ℕ) : ℚ) ^ Int.log 2 x ≤ x := Int.zpow_log_le_self (by norm_num) hx
  have h2k : 2 * k ≤ Int.log 2 x := by
    rw [hk]
    have := Int.ediv_mul_le (Int.log 2 x) (show (2 : ℤ) ≠ 0 by norm_num)
    linarith
  have hpow : (2 : ℚ) ^ (2 * k) ≤ x := by
    refine le_trans ?_ (by exact_mod_cast hlog)
    exact zpow_le_zpow_right₀ (by norm_num) h2k
  have hu2 : u ^ 2 * 2 ^ 104 = (2 : ℚ) ^ (2 * k) := by
    rw [hu, ← zpow_natCast, ← zpow_mul, ← zpow_natCast, ← zpow_add₀ (by norm_num)]
    congr 1
    push_cast
    ring
  have hy104 : (2 : ℚ) ^ 104 ≤ y := by
    rw [hy, le_div_iff₀ (by positivity)]
    calc (2 : ℚ) ^ 104 * u ^ 2 = u ^ 2 * 2 ^ 104 := by ring
      _ = (2 : ℚ) ^ (2 * k) := hu2
      _ ≤ x := hpow
  have hfl : 2 ^ 104 ≤ ⌊y⌋₊ := by
    apply Nat.le_floor
    exact_mod_cast hy104
  have hm52 : 2 ^ 52 ≤ m := by
    rw [hm, Nat.le_sqrt']
    calc (2 ^ 52) ^ 2 = 2 ^ 104 := by norm_num
      _ ≤ ⌊y⌋₊ := hfl
  have hm52q : (2 : ℚ) ^ 52 ≤ (m : ℚ) := by exact_mod_cast hm52
  have hmlo : (m : ℚ) ^ 2 ≤ y := by
    have h1 : m ^ 2 ≤ ⌊y⌋₊ := Nat.sqrt_le' _
    have h2 : ((⌊y⌋₊ : ℕ) : ℚ) ≤ y := Nat.floor_le hypos.le
    calc (m : ℚ) ^ 2 = ((m ^ 2 : ℕ) : ℚ) := by push_cast; ring
      _ ≤ ((⌊y⌋₊ : ℕ) : ℚ) := by exact_mod_cast h1
      _ ≤ y := h2
  have hmhi : y < ((m : ℚ) + 1) ^ 2 := by
    have h1 : ⌊y⌋₊ < (m + 1) ^ 2 := Nat.lt_succ_sqrt' _
    have h2 : y < ((⌊y⌋₊ : ℕ) : ℚ) + 1 := Nat.lt_floor_add_one y
    have h3 : ((⌊y⌋₊ : ℕ) : ℚ) + 1 ≤ (((m + 1) ^ 2 : ℕ) : ℚ) := by exact_mod_cast h1
    calc y < ((⌊y⌋₊ : ℕ) : ℚ) + 1 := h2
      _ ≤ (((m + 1) ^ 2 : ℕ) : ℚ) := h3
      _ = ((m : ℚ) + 1) ^ 2 := by push_cast; ring
  have hmpos : (0 : ℚ) < m := lt_of_lt_of_le (by positivity) hm52q
  have heps : (m : ℚ) / 2 ^ 53 ≥ 1 / 2 := by
    rw [ge_iff_le, le_div_iff₀ (by positivity)]
    norm_num at hm52q ⊢
    linarith
  unfold sqrtDouble
  rw [← hk, ← hu, ← hy, ← hm]
  split_ifs with hc
  · refine ⟨by positivity, ?_, ?_⟩
    · rw [hxy]
      have : (m : ℚ) ^ 2 * (1 - 1 / 2 ^ 53) ^ 2 ≤ y := by
        refine le_trans ?_ hmlo
        have h1 : (1 - 1 / 2 ^ 53 : ℚ) ^ 2 ≤ 1 := by norm_num
        calc (m : ℚ) ^ 2 * (1 - 1 / 2 ^ 53) ^ 2 ≤ (m : ℚ) ^ 2 * 1 :=
              mul_le_mul_of_nonneg_left h1 (by positivity)
          _ = (m : ℚ) ^ 2 := by ring
      calc ((m : ℚ) * u) ^ 2 * (1 - 1 / 2 ^ 53) ^ 2
          = ((m : ℚ) ^ 2 * (1 - 1 / 2 ^ 53) ^ 2) * u ^ 2 := by ring
        _ ≤ y * u ^ 2 := mul_le_mul_of_nonneg_right this (by positivity)
    · rw [hxy]
      have h1 : (m : ℚ) + 1 / 2 ≤ (m : ℚ) * (1 + 1 / 2 ^ 53) := by
        have : (m : ℚ) * (1 + 1 / 2 ^ 53) = m + m / 2 ^ 53 := by ring
        rw [this]
        linarith
      have h2 : ((m : ℚ) + 1 / 2) ^ 2 ≤ ((m : ℚ) * (1 + 1 / 2 ^ 53)) ^ 2 :=
        pow_le_pow_left₀ (by positivity) h1 2
      calc y * u ^ 2 ≤ ((m : ℚ) * (1 + 1 / 2 ^ 53)) ^ 2 * u ^ 2 :=
            mul_le_mul_of_nonneg_right (le_trans hc.le h2) (by positivity)
        _ = ((m : ℚ) * u) ^ 2 * (1 + 1 / 2 ^ 53) ^ 2 := by ring
  · push_neg at hc
    refine ⟨by positivity, ?_, ?_⟩
    · rw [hxy]
      have h1 : ((m : ℚ) + 1) * (1 - 1 / 2 ^ 53) ≤ (m : ℚ) + 1 / 2 := by
        have : ((m : ℚ) + 1) * (1 - 1 / 2 ^ 53) = m + 1 - m / 2 ^ 53 - 1 / 2 ^ 53 := by ring
        rw [this]
        have : (0 : ℚ) < 1 / 2 ^ 53 := by positivity
        linarith
      have h0 : (0 : ℚ) ≤ ((m : ℚ) + 1) * (1 - 1 / 2 ^ 53) := by
        apply mul_nonneg (by positivity)
        norm_num
      have h2 : (((m : ℚ) + 1) * (1 - 1 / 2 ^ 53)) ^ 2 ≤ ((m : ℚ) + 1 / 2) ^ 2 :=
        pow_le_pow_left₀ h0 h1 2
      calc (((m : ℚ) + 1) * u) ^ 2 * (1 - 1 / 2 ^ 53) ^ 2
          = (((m : ℚ) + 1) * (1 - 1 / 2 ^ 53)) ^ 2 * u ^ 2 := by ring
        _ ≤ y * u ^ 2 := mul_le_mul_of_nonneg_right (le_trans h2 hc) (by positivity)
    · rw [hxy]
      have h1 : (1 : ℚ) ≤ (1 + 1 / 2 ^ 53) ^ 2 := by norm_num
      calc y * u ^ 2 ≤ ((m : ℚ) + 1) ^ 2 * u ^ 2 :=
            mul_le_mul_of_nonneg_right hmhi.le (by positivity)
        _ = (((m : ℚ) + 1) * u) ^ 2 * 1 := by ring
        _ ≤ (((m : ℚ) + 1) * u) ^ 2 * (1 + 1 / 2 ^ 53) ^ 2 :=
            mul_le_mul_of_nonneg_left h1 (by positivity)

set_option maxRecDepth 100000 in
theorem bazettDouble_accurate (qt rr : ℚ)
    (hqt1 : (2 : ℚ) ^ (-500 : ℤ) ≤ qt) (hqt2 : qt ≤ 2 ^ 500)
    (hrr1 : (2 : ℚ) ^ (-500 : ℤ) ≤ rr) (hrr2 : rr ≤ 2 ^ 500) :
    ∃ v : ℚ, bazettDouble qt rr = Num.fin v ∧ 0 < v ∧
      |v ^ 2 * rr - 1000 * qt ^ 2| ≤ 1000 * qt ^ 2 / 2 ^ 50 := by
  have hqtpos : 0 < qt := lt_of_lt_of_le (by positivity) hqt1
  have hrrpos : 0 < rr := lt_of_lt_of_le (by positivity) hrr1
  have hApos : 0 < rr / 1000 := by positivity
  have hA1 : (2 : ℚ) ^ (-510 : ℤ) ≤ rr / 1000 := by
    rw [le_div_iff₀ (by norm_num)]
    refine le_trans ?_ hrr1
    rw [show (-500 : ℤ) = -510 + 10 by norm_num, zpow_add₀ (by norm_num)]
    apply mul_le_mul_of_nonneg_left (by norm_num) (by positivity)
  have hA2 : rr / 1000 ≤ 2 ^ 500 := by
    rw [div_le_iff₀ (by norm_num)]
    linarith [show (0 : ℚ) < 2 ^ 500 by positivity]
  -- first operation: rr / 1000
  obtain ⟨x, hx, hxerr, hxnn⟩ := roundDouble_accurate (rr / 1000)
    (by rw [abs_of_pos hApos]
        refine le_trans ?_ hA1
        exact zpow_le_zpow_right₀ (by norm_num) (by norm_num))
    (by rw [abs_of_pos hApos]
        refine lt_of_le_of_lt hA2 ?_
        norm_num)
  rw [abs_of_pos hApos, abs_le] at hxerr
  have hx1 : rr / 1000 * (1 - 1 / 2 ^ 53) ≤ x := by linarith
  have hx2 : x ≤ rr / 1000 * (1 + 1 / 2 ^ 53) := by linarith
  have hxpos : 0 < x := by
    refine lt_of_lt_of_le ?_ hx1
    apply mul_pos hApos
    norm_num
  -- second operation: Math.sqrt
  obtain ⟨hspos, hs1, hs2⟩ := sqrtDouble_accurate x hxpos
  set s := sqrtDouble x with hs
  -- bounds on s
  have hs_lo : (2 : ℚ) ^ (-256 : ℤ) ≤ s := by
    by_contra hcon
    push_neg at hcon
    have h1 : s ^ 2 < ((2 : ℚ) ^ (-256 : ℤ)) ^ 2 := pow_lt_pow_left₀ hcon hspos.le (by norm_num)
    have h2 : ((2 : ℚ) ^ (-256 : ℤ)) ^ 2 = 2 ^ (-512 : ℤ) := by
      rw [← zpow_natCast, ← zpow_mul]; norm_num
    have h3 : x < 2 ^ (-512 : ℤ) * (1 + 1 / 2 ^ 53) ^ 2 := by
      refine lt_of_le_of_lt hs2 ?_
      rw [← h2]
      exact mul_lt_mul_of_pos_right h1 (by positivity)
    have h4 : (2 : ℚ) ^ (-510 : ℤ) * (1 - 1 / 2 ^ 53) ≤ x := by
      refine le_trans ?_ hx1
      exact mul_le_mul_of_nonneg_right hA1 (by norm_num)
    have h5 : (2 : ℚ) ^ (-510 : ℤ) = 2 ^ (-512 : ℤ) * 4 := by
      rw [show (-510 : ℤ) = -512 + 2 by norm_num, zpow_add₀ (by norm_num)]; norm_num
    rw [h5] at h4
    have hp : (0 : ℚ) < 2 ^ (-512 : ℤ) := by positivity
    have h6 : (2 : ℚ) ^ (-512 : ℤ) * 4 * (1 - 1 / 2 ^ 53) < 2 ^ (-512 : ℤ) * (1 + 1 / 2 ^ 53) ^ 2 :=
      lt_of_le_of_lt h4 h3
    have h7 : (4 : ℚ) * (1 - 1 / 2 ^ 53) < (1 + 1 / 2 ^ 53) ^ 2 := by
      have := (mul_lt_mul_left hp).1 (by linarith : (2 : ℚ) ^ (-512 : ℤ) * (4 * (1 - 1 / 2 ^ 53)) < 2 ^ (-512 : ℤ) * (1 + 1 / 2 ^ 53) ^ 2)
      exact this
    norm_num at h7
  have hs_hi : s ≤ 2 ^ 251 := by
    by_contra hcon
    push_neg at hcon
    have h1 : ((2 : ℚ) ^ 251) ^ 2 < s ^ 2 := pow_lt_pow_left₀ hcon (by positivity) (by norm_num)
    have h3 : ((2 : ℚ) ^ 251) ^ 2 * (1 - 1 / 2 ^ 53) ^ 2 < x := by
      refine lt_of_lt_of_le ?_ hs1
      exact mul_lt_mul_of_pos_right h1 (by norm_num)
    have h4 : x ≤ 2 ^ 500 * (1 + 1 / 2 ^ 53) := by
      refine le_trans hx2 ?_
      exact mul_le_mul_of_nonneg_right hA2 (by norm_num)
    have h5 : ((2 : ℚ) ^ 251) ^ 2 = 2 ^ 500 * 4 := by norm_num
    rw [h5] at h3
    have hp : (0 : ℚ) < 2 ^ 500 := by positivity
    have h7 : (4 : ℚ) * (1 - 1 / 2 ^ 53) ^ 2 < (1 + 1 / 2 ^ 53) := by
      have := (mul_lt_mul_left hp).1 (by linarith : (2 : ℚ) ^ 500 * (4 * (1 - 1 / 2 ^ 53) ^ 2) < 2 ^ 500 * (1 + 1 / 2 ^ 53))
      exact this
    norm_num at h7
  -- third operation: the quotient
  have hPpos : 0 < qt / s := by positivity
  have hP1 : (2 : ℚ) ^ (-1022 : ℤ) ≤ qt / s := by
    rw [le_div_iff₀ hspos]
    calc (2 : ℚ) ^ (-1022 : ℤ) * s ≤ 2 ^ (-1022 : ℤ) * 2 ^ 251 :=
          mul_le_mul_of_nonneg_left hs_hi (by positivity)
      _ ≤ 2 ^ (-500 : ℤ) := by
          rw [← zpow_natCast, ← zpow_add₀ (by norm_num)]
          exact zpow_le_zpow_right₀ (by norm_num) (by norm_num)
      _ ≤ qt := hqt1
  have hP2 : qt / s < 2 ^ (1023 : ℤ) := by
    rw [div_lt_iff₀ hspos]
    calc qt ≤ 2 ^ 500 := hqt2
      _ < 2 ^ (1023 : ℤ) * 2 ^ (-256 : ℤ) := by
          rw [← zpow_add₀ (by norm_num)]
          norm_num
      _ ≤ 2 ^ (1023 : ℤ) * s := mul_le_mul_of_nonneg_left hs_lo (by positivity)
  obtain ⟨v, hv, hverr, hvnn⟩ := roundDouble_accurate (qt / s)
    (by rw [abs_of_pos hPpos]; exact hP1) (by rw [abs_of_pos hPpos]; exact hP2)
  rw [abs_of_pos hPpos, abs_le] at hverr
  have hv1 : qt / s * (1 - 1 / 2 ^ 53) ≤ v := by linarith
  have hv2 : v ≤ qt / s * (1 + 1 / 2 ^ 53) := by linarith
  have hvpos : 0 < v := by
    refine lt_of_lt_of_le ?_ hv1
    apply mul_pos hPpos
    norm_num
  refine ⟨v, ?_, hvpos, ?_⟩
  · unfold bazettDouble
    rw [hx]
    simp only []
    rw [if_neg (not_lt.2 hxpos.le), if_neg hxpos.ne']
    exact hv
  · have hPs : qt / s * s = qt := by field_simp
    -- upper bound
    have hup : v ^ 2 * (rr / 1000) * (1 - 1 / 2 ^ 53) ≤ qt ^ 2 * (1 + 1 / 2 ^ 53) ^ 4 := by
      have e1 : v ^ 2 ≤ (qt / s * (1 + 1 / 2 ^ 53)) ^ 2 := pow_le_pow_left₀ hvpos.le hv2 2
      calc v ^ 2 * (rr / 1000) * (1 - 1 / 2 ^ 53)
          = v ^ 2 * (rr / 1000 * (1 - 1 / 2 ^ 53)) := by ring
        _ ≤ v ^ 2 * x := mul_le_mul_of_nonneg_left hx1 (by positivity)
        _ ≤ v ^ 2 * (s ^ 2 * (1 + 1 / 2 ^ 53) ^ 2) := mul_le_mul_of_nonneg_left hs2 (by positivity)
        _ ≤ (qt / s * (1 + 1 / 2 ^ 53)) ^ 2 * (s ^ 2 * (1 + 1 / 2 ^ 53) ^ 2) :=
            mul_le_mul_of_nonneg_right e1 (by positivity)
        _ = (qt / s * s) ^ 2 * (1 + 1 / 2 ^ 53) ^ 4 := by ring
        _ = qt ^ 2 * (1 + 1 / 2 ^ 53) ^ 4 := by rw [hPs]
    have hlow : qt ^ 2 * (1 - 1 / 2 ^ 53) ^ 4 ≤ v ^ 2 * (rr / 1000) * (1 + 1 / 2 ^ 53) := by
      have hnn : (0 : ℚ) ≤ qt / s * (1 - 1 / 2 ^ 53) := by
        apply mul_nonneg hPpos.le
        norm_num
      have e1 : (qt / s * (1 - 1 / 2 ^ 53)) ^ 2 ≤ v ^ 2 := pow_le_pow_left₀ hnn hv1 2
      calc qt ^ 2 * (1 - 1 / 2 ^ 53) ^ 4 = (qt / s * s) ^ 2 * (1 - 1 / 2 ^ 53) ^ 4 := by rw [hPs]
        _ = (qt / s * (1 - 1 / 2 ^ 53)) ^ 2 * (s ^ 2 * (1 - 1 / 2 ^ 53) ^ 2) := by ring
        _ ≤ v ^ 2 * (s ^ 2 * (1 - 1 / 2 ^ 53) ^ 2) := mul_le_mul_of_nonneg_right e1 (by positivity)
        _ ≤ v ^ 2 * x := mul_le_mul_of_nonneg_left hs1 (by positivity)
        _ ≤ v ^ 2 * (rr / 1000 * (1 + 1 / 2 ^ 53)) := mul_le_mul_of_nonneg_left hx2 (by positivity)
        _ = v ^ 2 * (rr / 1000) * (1 + 1 / 2 ^ 53) := by ring
    have c1 : (1 + 1 / 2 ^ 53 : ℚ) ^ 4 ≤ (1 + 1 / 2 ^ 50) * (1 - 1 / 2 ^ 53) := by norm_num
    have c2 : (1 - 1 / 2 ^ 50 : ℚ) * (1 + 1 / 2 ^ 53) ≤ (1 - 1 / 2 ^ 53) ^ 4 := by norm_num
    have hq2 : (0 : ℚ) ≤ qt ^ 2 := by positivity
    have u1 : v ^ 2 * (rr / 1000) * (1 - 1 / 2 ^ 53) ≤ qt ^ 2 * (1 + 1 / 2 ^ 50) * (1 - 1 / 2 ^ 53) := by
      calc v ^ 2 * (rr / 1000) * (1 - 1 / 2 ^ 53) ≤ qt ^ 2 * (1 + 1 / 2 ^ 53) ^ 4 := hup
        _ ≤ qt ^ 2 * ((1 + 1 / 2 ^ 50) * (1 - 1 / 2 ^ 53)) := mul_le_mul_of_nonneg_left c1 hq2
        _ = qt ^ 2 * (1 + 1 / 2 ^ 50) * (1 - 1 / 2 ^ 53) := by ring
    have u2 : v ^ 2 * (rr / 1000) ≤ qt ^ 2 * (1 + 1 / 2 ^ 50) :=
      le_of_mul_le_mul_right u1 (by norm_num)
    have l1 : qt ^ 2 * (1 - 1 / 2 ^ 50) * (1 + 1 / 2 ^ 53) ≤ v ^ 2 * (rr / 1000) * (1 + 1 / 2 ^ 53) := by
      calc qt ^ 2 * (1 - 1 / 2 ^ 50) * (1 + 1 / 2 ^ 53)
          = qt ^ 2 * ((1 - 1 / 2 ^ 50) * (1 + 1 / 2 ^ 53)) := by ring
        _ ≤ qt ^ 2 * (1 - 1 / 2 ^ 53) ^ 4 := mul_le_mul_of_nonneg_left c2 hq2
        _ ≤ v ^ 2 * (rr / 1000) * (1 + 1 / 2 ^ 53) := hlow
    have l2 : qt ^ 2 * (1 - 1 / 2 ^ 50) ≤ v ^ 2 * (rr / 1000) :=
      le_of_mul_le_mul_right l1 (by norm_num)
    rw [abs_le]
    constructor
    · have : v ^ 2 * rr = 1000 * (v ^ 2 * (rr / 1000)) := by ring
      rw [this]
      have : 1000 * qt ^ 2 / 2 ^ 50 = 1000 * (qt ^ 2 * (1 / 2 ^ 50)) := by ring
      rw [this]
      linarith
    · have : v ^ 2 * rr = 1000 * (v ^ 2 * (rr / 1000)) := by ring
      rw [this]
      have : 1000 * qt ^ 2 / 2 ^ 50 = 1000 * (qt ^ 2 * (1 / 2 ^ 50)) := by ring
      rw [this]
      linarith

theorem sqrtDouble_eq (x : ℚ) (k : ℤ) (m : ℕ) (hx : 0 < x)
    (hlo : (2 : ℚ) ^ (2 * k) ≤ x) (hhi : x < (2 : ℚ) ^ (2 * k + 2))
    (hm1 : (m : ℚ) ^ 2 ≤ x / (2 ^ (k - 52)) ^ 2)
    (hm2 : x / (2 ^ (k - 52)) ^ 2 < ((m : ℚ) + 1) ^ 2) :
    sqrtDouble x =
      if x / (2 ^ (k - 52)) ^ 2 < ((m : ℚ) + 1 / 2) ^ 2 then (m : ℚ) * 2 ^ (k - 52)
      else ((m : ℚ) + 1) * 2 ^ (k - 52) := by
  have h1 : 2 * k ≤ Int.log 2 x :=
    (Int.zpow_le_iff_le_log (by norm_num) hx).1 (by exact_mod_cast hlo)
  have h2 : Int.log 2 x < 2 * k + 2 :=
    (Int.lt_zpow_iff_log_lt (by norm_num) hx).1 (by exact_mod_cast hhi)
  have hk : Int.log 2 x / 2 = k := by omega
  have hy : 0 ≤ x / (2 ^ (k - 52)) ^ 2 := by positivity
  have hm : Nat.sqrt ⌊x / (2 ^ (k - 52)) ^ 2⌋₊ = m := by
    symm
    rw [Nat.eq_sqrt']
    constructor
    · apply Nat.le_floor
      push_cast
      exact hm1
    · rw [Nat.floor_lt hy]
      push_cast
      exact hm2
  unfold sqrtDouble
  rw [hk, hm]

theorem percentageOf_zero (n : Nat) : percentageOf 0 n = 0 := by
  unfold percentageOf
  simp only [Nat.cast_zero, zero_div]
  rw [roundDouble_zero]
  simp only [zero_mul]
  rw [roundDouble_zero]
  have h : (⌊(0 : ℚ) + 1 / 2⌋ : Int) = 0 := by
    rw [Int.floor_eq_iff]
    norm_num
  simp only [Math.round, h]
  norm_num

theorem percentageOf_near (s n : ℕ) (hn : 0 < n) (hn2 : n < 2 ^ 32) (hs : s < 2 ^ 32) :
    ∃ b : ℚ, (percentageOf s n : ℤ) = ⌊b + 1 / 2⌋ ∧
      |b - 100 * (s : ℚ) / (n : ℚ)| < 1 / (2 * (n : ℚ)) := by
  have hnq : (0 : ℚ) < n := by exact_mod_cast hn
  rcases Nat.eq_zero_or_pos s with hs0 | hspos
  · subst hs0
    refine ⟨0, ?_, ?_⟩
    · rw [percentageOf_zero]
      have h : (⌊(0 : ℚ) + 1 / 2⌋ : Int) = 0 := by
        rw [Int.floor_eq_iff]
        norm_num
      rw [h]
      rfl
    · simp only [Nat.cast_zero, mul_zero, zero_div, sub_zero, abs_zero]
      positivity
  · have hsq : (1 : ℚ) ≤ s := by exact_mod_cast hspos
    have hsq2 : (s : ℚ) < 2 ^ 32 := by exact_mod_cast hs
    have hnq2 : (n : ℚ) < 2 ^ 32 := by exact_mod_cast hn2
    have hn1 : (1 : ℚ) ≤ n := by exact_mod_cast hn
    have hapos : (0 : ℚ) < (s : ℚ) / n := by positivity
    have ha1 : (1 : ℚ) / 2 ^ 32 ≤ (s : ℚ) / n := by
      rw [div_le_div_iff₀ (by positivity) hnq]
      nlinarith
    have ha2 : (s : ℚ) / n < 2 ^ 32 := by
      rw [div_lt_iff₀ hnq]
      nlinarith
    obtain ⟨a, ha, haerr, hann⟩ := roundDouble_accurate ((s : ℚ) / n)
      (by rw [abs_of_pos hapos]
          refine le_trans ?_ ha1
          norm_num)
      (by rw [abs_of_pos hapos]
          refine lt_trans ha2 ?_
          norm_num)
    rw [abs_of_pos hapos, abs_le] at haerr
    have ha3 : (s : ℚ) / n * (1 - 1 / 2 ^ 53) ≤ a := by linarith
    have ha4 : a ≤ (s : ℚ) / n * (1 + 1 / 2 ^ 53) := by linarith
    have hapos2 : 0 < a := by
      refine lt_of_lt_of_le ?_ ha3
      apply mul_pos hapos
      norm_num
    have hb0pos : 0 < a * 100 := by positivity
    have ha5 : (1 : ℚ) / 2 ^ 33 ≤ a := by
      refine le_trans ?_ ha3
      calc (1 : ℚ) / 2 ^ 33 = 1 / 2 ^ 32 * (1 / 2) := by norm_num
        _ ≤ (s : ℚ) / n * (1 - 1 / 2 ^ 53) :=
            mul_le_mul ha1 (by norm_num) (by norm_num) hapos.le
    have ha6 : a ≤ 2 ^ 33 := by
      refine le_trans ha4 ?_
      calc (s : ℚ) / n * (1 + 1 / 2 ^ 53) ≤ 2 ^ 32 * 2 :=
            mul_le_mul ha2.le (by norm_num) (by norm_num) (by norm_num)
        _ = 2 ^ 33 := by norm_num
    obtain ⟨b, hb, hberr, hbnn⟩ := roundDouble_accurate (a * 100)
      (by rw [abs_of_pos hb0pos]
          calc (2 : ℚ) ^ (-1022 : ℤ) ≤ 1 / 2 ^ 33 * 100 := by
                rw [zpow_neg, ← one_div]
                norm_num
            _ ≤ a * 100 := mul_le_mul_of_nonneg_right ha5 (by norm_num))
      (by rw [abs_of_pos hb0pos]
          calc a * 100 ≤ 2 ^ 33 * 100 := mul_le_mul_of_nonneg_right ha6 (by norm_num)
            _ < 2 ^ (1023 : ℤ) := by norm_num)
    rw [abs_of_pos hb0pos, abs_le] at hberr
    have hb0 := hbnn hb0pos.le
    refine ⟨b, ?_, ?_⟩
    · unfold percentageOf
      rw [ha]
      simp only []
      rw [hb]
      simp only [Math.round, Int.floor_intCast]
      apply Int.toNat_of_nonneg
      apply Int.floor_nonneg.2
      linarith
    · have hr : 100 * (s : ℚ) / n = (s : ℚ) / n * 100 := by ring
      rw [hr]
      have hbound : (s : ℚ) / n * 100 * (3 / 2 ^ 53) < 1 / (2 * (n : ℚ)) := by
        rw [show (s : ℚ) / n * 100 * (3 / 2 ^ 53) = (s * (300 / 2 ^ 53)) / n by ring]
        rw [div_lt_div_iff₀ hnq (by positivity)]
        have : (s : ℚ) * (300 / 2 ^ 53) < 1 / 2 := by
          calc (s : ℚ) * (300 / 2 ^ 53) < 2 ^ 32 * (300 / 2 ^ 53) :=
                mul_lt_mul_of_pos_right hsq2 (by norm_num)
            _ < 1 / 2 := by norm_num
        nlinarith
      have h100 : a * 100 ≤ (s : ℚ) / n * 100 * (1 + 1 / 2 ^ 53) := by nlinarith
      have hbe : a * 100 / 2 ^ 53 ≤ (s : ℚ) / n * 100 * (2 / 2 ^ 53) := by
        have : (1 + 1 / 2 ^ 53 : ℚ) / 2 ^ 53 ≤ 2 / 2 ^ 53 := by norm_num
        calc a * 100 / 2 ^ 53 ≤ (s : ℚ) / n * 100 * (1 + 1 / 2 ^ 53) / 2 ^ 53 :=
              div_le_div_of_nonneg_right h100 (by norm_num)
          _ = (s : ℚ) / n * 100 * ((1 + 1 / 2 ^ 53) / 2 ^ 53) := by ring
          _ ≤ (s : ℚ) / n * 100 * (2 / 2 ^ 53) :=
              mul_le_mul_of_nonneg_left this (by positivity)
      rw [abs_lt]
      constructor <;> nlinarith

theorem floor_half_of_near (s n : ℕ) (hn : 0 < n) (b : ℚ)
    (hb : |b - 100 * (s : ℚ) / (n : ℚ)| < 1 / (2 * (n : ℚ))) :
    round (100 * (s : ℚ) / (n : ℚ)) - 1 ≤ ⌊b + 1 / 2⌋ ∧
    ⌊b + 1 / 2⌋ ≤ round (100 * (s : ℚ) / (n : ℚ)) ∧
    (¬ (2 * n ∣ 200 * s + n) → ⌊b + 1 / 2⌋ = round (100 * (s : ℚ) / (n : ℚ))) := by
  have hnq : (0 : ℚ) < n := by exact_mod_cast hn
  have hn1 : (1 : ℚ) ≤ n := by exact_mod_cast hn
  rw [round_eq]
  set k : ℤ := ⌊100 * (s : ℚ) / (n : ℚ) + 1 / 2⌋ with hk
  have hk1 : (k : ℚ) ≤ 100 * (s : ℚ) / n + 1 / 2 := Int.floor_le _
  have hk2 : 100 * (s : ℚ) / n + 1 / 2 < k + 1 := Int.lt_floor_add_one _
  have ht : 100 * (s : ℚ) / n + 1 / 2 = ((200 * s + n : ℕ) : ℚ) / (2 * n) := by
    push_cast
    field_simp
    ring
  rw [abs_lt] at hb
  have hinv : 1 / (2 * (n : ℚ)) ≤ 1 / 2 := by
    rw [div_le_div_iff₀ (by positivity) (by norm_num)]
    linarith
  -- the integer form of the two bounds on k
  have hI1 : (k * (2 * n) : ℤ) ≤ ((200 * s + n : ℕ) : ℤ) := by
    have : (k : ℚ) * (2 * n) ≤ ((200 * s + n : ℕ) : ℚ) := by
      rw [ht, le_div_iff₀ (by positivity)] at hk1
      exact hk1
    exact_mod_cast this
  have hI2 : (((200 * s + n : ℕ) : ℤ)) < (k + 1) * (2 * n) := by
    have : ((200 * s + n : ℕ) : ℚ) < ((k : ℚ) + 1) * (2 * n) := by
      rw [ht, div_lt_iff₀ (by positivity)] at hk2
      exact hk2
    exact_mod_cast this
  have hup : 100 * (s : ℚ) / n + 1 / 2 + 1 / (2 * (n : ℚ)) ≤ k + 1 := by
    have h3 : (((200 * s + n : ℕ) : ℤ)) + 1 ≤ (k + 1) * (2 * n) := by omega
    have h4 : (((200 * s + n : ℕ) : ℚ)) + 1 ≤ ((k : ℚ) + 1) * (2 * n) := by exact_mod_cast h3
    rw [ht, div_add_div_same, div_le_iff₀ (by positivity)]
    exact h4
  refine ⟨?_, ?_, ?_⟩
  · rw [Int.le_floor]
    push_cast
    linarith
  · rw [← Int.lt_add_one_iff, Int.floor_lt]
    push_cast
    linarith
  · intro hnd
    apply le_antisymm
    · rw [← Int.lt_add_one_iff, Int.floor_lt]
      push_cast
      linarith
    · rw [Int.le_floor]
      have hne : (k * (2 * n) : ℤ) ≠ ((200 * s + n : ℕ) : ℤ) := by
        intro heq
        apply hnd
        have : ((2 * n : ℕ) : ℤ) ∣ ((200 * s + n : ℕ) : ℤ) := by
          rw [← heq]
          push_cast
          exact Dvd.intro_left k rfl
        exact_mod_cast this
      have h5 : (k * (2 * n) : ℤ) + 1 ≤ ((200 * s + n : ℕ) : ℤ) := by omega
      have h6 : (k : ℚ) * (2 * n) + 1 ≤ ((200 * s + n : ℕ) : ℚ) := by exact_mod_cast h5
      have h7 : (k : ℚ) + 1 / (2 * (n : ℚ)) ≤ 100 * (s : ℚ) / n + 1 / 2 := by
        rw [ht, le_div_iff₀ (by positivity)]
        have : ((k : ℚ) + 1 / (2 * (n : ℚ))) * (2 * n) = k * (2 * n) + 1 := by
          field_simp
        rw [this]
        exact h6
      linarith

theorem roundDouble_one : roundDouble (1000 / 1000) = Num.fin 1 := by
  rw [roundDouble_eq _ 0 4503599627370496 (by norm_num) (by norm_num [abs_of_pos])
    (by norm_num [abs_of_pos]) (by norm_num [abs_lt]) (by norm_num [abs_lt])]
  norm_num

theorem sqrtDouble_one : sqrtDouble 1 = 1 := by
  rw [sqrtDouble_eq 1 0 4503599627370496 (by norm_num) (by norm_num) (by norm_num)
    (by norm_num) (by norm_num)]
  norm_num

theorem bazettDouble_unit (qt : ℚ) : bazettDouble qt 1000 = roundDouble qt := by
  unfold bazettDouble
  rw [roundDouble_one]
  simp only []
  rw [if_neg (by norm_num), if_neg (by norm_num), sqrtDouble_one, div_one]

theorem calculateQTc_of_ne (bazett : ℚ → ℚ → Num) (qt rr : ℚ) (gender : String)
    (hqt : qt ≠ 0) (hrr : rr ≠ 0) :
    calculateQTc bazett (some qt) (some rr) gender =
      (Outcome.done,
        some
          { shown := Math.round (bazett qt rr)
            interpretation := interpretation (bazett qt rr) gender }) := by
  simp [calculateQTc, hqt, hrr]

theorem round_interpret_of_bounds (v : ℚ) (n : ℤ) (gender label : String)
    (hlo : (n : ℚ) - 1 / 2 ≤ v) (hhi : v < (n : ℚ) + 1 / 2)
    (hl : interpretation (Num.fin v) gender = label) :
    ({ shown := Math.round (Num.fin v), interpretation := interpretation (Num.fin v) gender } :
      QTcResult) = { shown := Num.fin n, interpretation := label } := by
  have hfloor : (⌊v + 1 / 2⌋ : Int) = n := by
    rw [Int.floor_eq_iff]
    constructor <;> linarith
  simp only [Math.round, hfloor, hl]

theorem bazett_example_bounds (qt lo hi : ℚ)
    (hqt1 : (2 : ℚ) ^ (-500 : ℤ) ≤ qt) (hqt2 : qt ≤ 2 ^ 500)
    (hlo : lo ^ 2 * 800 < 1000 * qt ^ 2 * (1 - 1 / 2 ^ 50))
    (hhi : 1000 * qt ^ 2 * (1 + 1 / 2 ^ 50) < hi ^ 2 * 800) (hhi0 : 0 ≤ hi) :
    ∃ v : ℚ, bazettDouble qt 800 = Num.fin v ∧ lo < v ∧ v < hi := by
  obtain ⟨v, hv, hvpos, herr⟩ := bazettDouble_accurate qt 800 hqt1 hqt2
    (le_trans (zpow_le_zpow_right₀ (by norm_num) (by norm_num : (-500 : ℤ) ≤ 0)) (by norm_num))
    (by norm_num)
  rw [abs_le] at herr
  refine ⟨v, hv, ?_, ?_⟩
  · by_contra hcon
    push_neg at hcon
    have h1 : v ^ 2 ≤ lo ^ 2 := pow_le_pow_left₀ hvpos.le hcon 2
    have h2 : 1000 * qt ^ 2 / 2 ^ 50 = 1000 * qt ^ 2 * (1 / 2 ^ 50) := by ring
    linarith
  · by_contra hcon
    push_neg at hcon
    have h1 : hi ^ 2 ≤ v ^ 2 := pow_le_pow_left₀ hhi0 hcon 2
    have h2 : 1000 * qt ^ 2 / 2 ^ 50 = 1000 * qt ^ 2 * (1 / 2 ^ 50) := by ring
    linarith

/-! ### Calls that stay off the summary -/

theorem showsSummary_of_question (c : Content) (h : showsQuestion c = true) :
    showsSummary c = false := by
  cases c <;> simp_all [showsQuestion, showsSummary]

theorem showsSummary_of_result (c : Content) (h : showsResult c = true) :
    showsSummary c = false := by
  cases c <;> simp_all [showsResult, showsSummary]

theorem tick_summary (i : Nat) (p : Page) :
    showsSummary (tick i p).content = showsSummary p.content := by
  unfold tick
  split
  · rename_i number total q checked shown hview
    split_ifs
    · simp [hview, showsSummary]
    · rfl
  · rfl

theorem nextQuestion_summary (p : Page) (bank : List Question)
    (hq : p.questions = some bank)
    (h : showsSummary (nextQuestion p).2.content = false) :
    p.currentQuestion + 1 < bank.length := by
  by_contra hlt
  rw [nextQuestion_last p bank hq (by omega)] at h
  simp [showsSummary] at h

theorem offSummary_calls (bank : List Question) (cs : List Call) :
    ∀ p : Page, p.questions = some bank → p.currentQuestion ≤ bank.length →
      (showsSummary p.content = false → p.currentQuestion < bank.length) →
      staysOffSummary p cs = true → (calls p cs).currentQuestion ≤ bank.length := by
  induction cs with
  | nil => intro p _ hle _ _; exact hle
  | cons c cs ih =>
    intro p hq hle hoff hstay
    simp only [calls, List.foldl_cons]
    cases c with
    | tick i =>
      simp only [staysOffSummary] at hstay
      obtain ⟨t1, t2, _, _, _⟩ := tick_fields i p
      refine ih _ ?_ ?_ ?_ hstay
      · simp only [call]; rw [t1]; exact hq
      · simp only [call]; rw [t2]; exact hle
      · simp only [call]; rw [tick_summary, t2]; exact hoff
    | checkAnswer correct =>
      simp only [staysOffSummary] at hstay
      obtain ⟨c1, c2, c3⟩ := checkAnswer_fields p correct bank hq
        (fun hs => hoff (showsSummary_of_question _ hs))
      refine ih _ ?_ ?_ ?_ hstay
      · simp only [call]; rw [c1]; exact hq
      · simp only [call]; rw [c2]; exact hle
      · simp only [call]
        rw [c2]
        rcases c3 with ⟨_, cc⟩ | ⟨cq, _, _⟩
        · rw [cc]; exact hoff
        · intro _
          exact hoff (showsSummary_of_question _ cq)
    | nextQuestion =>
      simp only [staysOffSummary, Bool.and_eq_true, Bool.not_eq_true'] at hstay
      obtain ⟨n1, n2, _, _, _⟩ := nextQuestion_fields p bank hq
      have hlt := hoff hstay.1
      refine ih _ ?_ ?_ ?_ hstay.2
      · simp only [call]; rw [n1]; exact hq
      · simp only [call]; rw [n2]; omega
      · simp only [call]
        intro hs
        rw [n2]
        exact nextQuestion_summary p bank hq hs

/-! ## The claims -/

/-- C2. On a page whose document shows the current question `q` of the bank with option
`value` ticked, `checkAnswer(q.correct)` (the handler of "Responder") runs to its end, raises the
score by exactly 1 when `value` is the correct index of `q` and leaves it as it is otherwise,
leaves `currentQuestion` unchanged, and replaces the question by the result markup, which
reports correctness accordingly and carries the explanation of `q`. -/
theorem checkAnswer_scores_selected (p : Page) (bank : List Question) (q : Question)
    (number total shown value : Nat)
    (hq : p.questions = some bank) (hcur : bank[p.currentQuestion]? = some q)
    (hview : p.content = Content.questionView number total q (some value) shown) :
    (checkAnswer p q.correct).1 = Outcome.done ∧
    (checkAnswer p q.correct).2.score = p.score + (if value = q.correct then 1 else 0) ∧
    (checkAnswer p q.correct).2.currentQuestion = p.currentQuestion ∧
    (checkAnswer p q.correct).2.content =
      Content.resultView number total (decide (value = q.correct)) q.explanation
        (nextLabel p.currentQuestion bank.length) shown := by
  rw [checkAnswer_of_checked p bank q number total shown value q.correct q hq hcur hview]
  exact ⟨rfl, rfl, rfl, rfl⟩

/-- Witness of C2 on the first question of `basics`: option 1 ticked, the correct one. -/
theorem checkAnswer_scores_selected_witness :
    (checkAnswer (tick 1 (startQuiz Content.other "basics").2) 1).1 = Outcome.done ∧
    (checkAnswer (tick 1 (startQuiz Content.other "basics").2) 1).2.score = 1 ∧
    (checkAnswer (tick 1 (startQuiz Content.other "basics").2) 1).2.currentQuestion = 0 ∧
    (checkAnswer (tick 1 (startQuiz Content.other "basics").2) 1).2.content =
      Content.resultView 1 2 true
        "O intervalo PR normal varia de 0,12 a 0,20 segundos, representando o tempo de condução atrioventricular."
        "Próxima Questão" 0 :=
  checkAnswer_scores_selected (tick 1 (startQuiz Content.other "basics").2) basics
    { question := "Qual é a duração normal do intervalo PR?"
      options := ["0,06-0,10s", "0,12-0,20s", "0,20-0,30s", "0,30-0,40s"]
      correct := 1
      explanation := "O intervalo PR normal varia de 0,12 a 0,20 segundos, representando o tempo de condução atrioventricular." }
    1 2 0 1 rfl rfl rfl

/-- C3, as stated, fails: on the first question of `basics` with option 1 ticked, the first
`checkAnswer(1)` runs to its end, and the second one, with no `nextQuestion()` in between, ends
with the alert "Selecione uma resposta!", which is the very outcome of `checkAnswer(1)` on the
fresh question with no option ticked. The code has no outcome of its own for a call in the
wrong state. -/
theorem checkAnswer_twice_alerts_no_selection :
    (checkAnswer (tick 1 (startQuiz Content.other "basics").2) 1).1 = Outcome.done ∧
    (checkAnswer (checkAnswer (tick 1 (startQuiz Content.other "basics").2) 1).2 1).1 =
      Outcome.alert "Selecione uma resposta!" ∧
    (checkAnswer (checkAnswer (tick 1 (startQuiz Content.other "basics").2) 1).2 1).1 =
      (checkAnswer (startQuiz Content.other "basics").2 1).1 := by
  decide

/-- C3, amended. When a `checkAnswer` call has run to its end, a second `checkAnswer` call with
no `nextQuestion()` in between is turned down by the no-selection guard: it ends with the alert
"Selecione uma resposta!" and leaves the whole page (score, `currentQuestion`, document) as the
first call left it, so the score is not incremented twice for one question. -/
theorem checkAnswer_twice_rejected (p : Page) (correct again : Nat)
    (hfirst : (checkAnswer p correct).1 = Outcome.done) :
    checkAnswer (checkAnswer p correct).2 again =
      (Outcome.alert "Selecione uma resposta!", (checkAnswer p correct).2) := by
  obtain ⟨number, total, b, e, l, shown, hc⟩ := checkAnswer_done_content p correct hfirst
  apply checkAnswer_of_no_radio
  intro number' total' q' value' shown' h
  rw [hc] at h
  simp at h

/-- Witness of the amended C3 on the first question of `basics`. -/
theorem checkAnswer_twice_rejected_witness :
    (checkAnswer (tick 1 (startQuiz Content.other "basics").2) 1).1 = Outcome.done ∧
    checkAnswer (checkAnswer (tick 1 (startQuiz Content.other "basics").2) 1).2 1 =
      (Outcome.alert "Selecione uma resposta!",
        (checkAnswer (tick 1 (startQuiz Content.other "basics").2) 1).2) :=
  ⟨by decide,
    checkAnswer_twice_rejected (tick 1 (startQuiz Content.other "basics").2) 1 1 (by decide)⟩

/-- C5. On a page whose document shows the current question `q` with no option ticked,
`checkAnswer` ends with the alert "Selecione uma resposta!" and leaves the whole page unchanged,
score and `currentQuestion` included; the same question can then be answered: after ticking any
of its options, `checkAnswer(q.correct)` runs to its end. -/
theorem checkAnswer_without_selection (p : Page) (bank : List Question) (q : Question)
    (number total shown correct : Nat)
    (hq : p.questions = some bank) (hcur : bank[p.currentQuestion]? = some q)
    (hview : p.content = Content.questionView number total q none shown) :
    checkAnswer p correct = (Outcome.alert "Selecione uma resposta!", p) ∧
    ∀ i, i < q.options.length →
      (checkAnswer (tick i (checkAnswer p correct).2) q.correct).1 = Outcome.done := by
  have h1 : checkAnswer p correct = (Outcome.alert "Selecione uma resposta!", p) := by
    apply checkAnswer_of_no_radio
    intro number total q value shown hc
    rw [hview] at hc
    simp at hc
  refine ⟨h1, fun i hi => ?_⟩
  rw [h1]
  have ht : (tick i p).content = Content.questionView number total q (some i) shown := by
    simp [tick, hview, hi]
  have hq2 : (tick i p).questions = some bank := by
    simp [tick, hview, hi, hq]
  have hc2 : bank[(tick i p).currentQuestion]? = some q := by
    simp [tick, hview, hi, hcur]
  rw [checkAnswer_of_checked (tick i p) bank q number total shown i q.correct q hq2 hc2 ht]

/-- Witness of C5 on the fresh first question of `basics`. -/
theorem checkAnswer_without_selection_witness :
    checkAnswer (startQuiz Content.other "basics").2 1 =
      (Outcome.alert "Selecione uma resposta!", (startQuiz Content.other "basics").2) ∧
    ∀ i, i < 4 →
      (checkAnswer (tick i (checkAnswer (startQuiz Content.other "basics").2 1).2) 1).1 =
        Outcome.done :=
  checkAnswer_without_selection (startQuiz Content.other "basics").2 basics
    { question := "Qual é a duração normal do intervalo PR?"
      options := ["0,06-0,10s", "0,12-0,20s", "0,20-0,30s", "0,30-0,40s"]
      correct := 1
      explanation := "O intervalo PR normal varia de 0,12 a 0,20 segundos, representando o tempo de condução atrioventricular." }
    1 2 0 1 rfl rfl rfl

/-- C7. The message of the summary is the "excellent" one exactly when the percentage is at
least 80, the "good" one exactly when it is at least 60 and below 80, and the "needs review" one
exactly when it is below 60; so 80 is excellent, 60 is good and 59 is needs review. -/
theorem performanceMsg_tiers (percentage : Nat) :
    (performanceMsg percentage = "Excelente! Você domina o conteúdo." ↔ 80 ≤ percentage) ∧
    (performanceMsg percentage = "Bom trabalho! Revise alguns conceitos." ↔
      60 ≤ percentage ∧ percentage < 80) ∧
    (performanceMsg percentage = "Continue estudando. A prática leva à perfeição!" ↔
      percentage < 60) ∧
    performanceMsg 80 = "Excelente! Você domina o conteúdo." ∧
    performanceMsg 60 = "Bom trabalho! Revise alguns conceitos." ∧
    performanceMsg 59 = "Continue estudando. A prática leva à perfeição!" := by
  refine ⟨?_, ?_, ?_, by decide, by decide, by decide⟩
  · unfold performanceMsg
    split_ifs with h1 h2
    · simp [h1]
    · constructor
      · intro h; exact absurd h (by decide)
      · intro h; exact absurd h h1
    · constructor
      · intro h; exact absurd h (by decide)
      · intro h; exact absurd h h1
  · unfold performanceMsg
    split_ifs with h1 h2
    · constructor
      · intro h; exact absurd h (by decide)
      · intro h; omega
    · constructor
      · intro _; omega
      · intro _; rfl
    · constructor
      · intro h; exact absurd h (by decide)
      · intro h; omega
  · unfold performanceMsg
    split_ifs with h1 h2
    · constructor
      · intro h; exact absurd h (by decide)
      · intro h; omega
    · constructor
      · intro h; exact absurd h (by decide)
      · intro h; omega
    · constructor
      · intro _; omega
      · intro _; rfl

/-- C4, as stated, fails: on the fresh first question of `basics`, with no answer submitted,
`nextQuestion()` runs to its end and the document shows the second question. -/
theorem nextQuestion_skips_unanswered :
    (startQuiz Content.other "basics").2.content =
      Content.questionView 1 2
        { question := "Qual é a duração normal do intervalo PR?"
          options := ["0,06-0,10s", "0,12-0,20s", "0,20-0,30s", "0,30-0,40s"]
          correct := 1
          explanation := "O intervalo PR normal varia de 0,12 a 0,20 segundos, representando o tempo de condução atrioventricular." }
        none 0 ∧
    (nextQuestion (startQuiz Content.other "basics").2).1 = Outcome.done ∧
    (nextQuestion (startQuiz Content.other "basics").2).2.currentQuestion = 1 ∧
    (nextQuestion (startQuiz Content.other "basics").2).2.content =
      Content.questionView 2 2
        { question := "Qual derivação melhor visualiza a parede inferior do coração?"
          options := ["V1-V2", "I, aVL", "II, III, aVF", "V5-V6"]
          correct := 2
          explanation := "As derivações II, III e aVF visualizam a parede inferior do ventrículo esquerdo." }
        none 0 := by
  decide

/-- C4, amended. `nextQuestion()` has no guard: on a page whose document shows the current
question `q` it runs to its end, raises `currentQuestion` by 1 and leaves the score unchanged.
What keeps a question from being skipped is the markup: the question markup holds no control
that calls `nextQuestion()`, and every call whose control it does hold (ticking an option,
"Responder") leaves `currentQuestion` as it is and leaves on display either the same question or
its result, which is where the button of `nextQuestion()` is. -/
theorem nextQuestion_unguarded (p : Page) (bank : List Question) (q : Question)
    (number total shown : Nat) (checked : Option Nat)
    (hq : p.questions = some bank) (hcur : bank[p.currentQuestion]? = some q)
    (hview : p.content = Content.questionView number total q checked shown) :
    ((nextQuestion p).1 = Outcome.done ∧
      (nextQuestion p).2.currentQuestion = p.currentQuestion + 1 ∧
      (nextQuestion p).2.score = p.score) ∧
    rendered p.content Call.nextQuestion = false ∧
    ∀ c, rendered p.content c = true →
      (call p c).2.currentQuestion = p.currentQuestion ∧
      ((∃ checked', (call p c).2.content = Content.questionView number total q checked' shown) ∨
        (∃ b, (call p c).2.content =
          Content.resultView number total b q.explanation
            (nextLabel p.currentQuestion bank.length) shown ∧
          rendered (call p c).2.content Call.nextQuestion = true)) := by
  refine ⟨?_, by rw [hview]; rfl, ?_⟩
  · by_cases hlt : p.currentQuestion + 1 < bank.length
    · rw [nextQuestion_more p bank _ hq (List.getElem?_eq_getElem hlt)]
      exact ⟨rfl, rfl, rfl⟩
    · rw [nextQuestion_last p bank hq (by omega)]
      exact ⟨rfl, rfl, rfl⟩
  · intro c hc
    cases c with
    | tick i =>
      refine ⟨by simp only [call, tick, hview]; split_ifs <;> rfl, Or.inl ?_⟩
      simp only [call, tick, hview]
      split_ifs
      · exact ⟨_, rfl⟩
      · exact ⟨_, hview⟩
    | checkAnswer correct =>
      cases checked with
      | none =>
        have h1 : checkAnswer p correct = (Outcome.alert "Selecione uma resposta!", p) := by
          apply checkAnswer_of_no_radio
          intro a b c d e hcontra
          rw [hview] at hcontra
          simp at hcontra
        simp only [call]
        rw [h1]
        exact ⟨rfl, Or.inl ⟨_, hview⟩⟩
      | some value =>
        simp only [call]
        rw [checkAnswer_of_checked p bank q number total shown value correct q hq hcur hview]
        exact ⟨rfl, Or.inr ⟨_, rfl, rfl⟩⟩
    | nextQuestion =>
      rw [hview] at hc
      simp [rendered] at hc

/-- Witness of the amended C4 on the fresh first question of `basics`. -/
theorem nextQuestion_unguarded_witness :
    (nextQuestion (startQuiz Content.other "basics").2).2.currentQuestion = 1 ∧
    rendered (startQuiz Content.other "basics").2.content Call.nextQuestion = false :=
  ⟨(nextQuestion_unguarded (startQuiz Content.other "basics").2 basics
      { question := "Qual é a duração normal do intervalo PR?"
        options := ["0,06-0,10s", "0,12-0,20s", "0,20-0,30s", "0,30-0,40s"]
        correct := 1
        explanation := "O intervalo PR normal varia de 0,12 a 0,20 segundos, representando o tempo de condução atrioventricular." }
      1 2 0 none rfl rfl rfl).1.2.1,
    (nextQuestion_unguarded (startQuiz Content.other "basics").2 basics
      { question := "Qual é a duração normal do intervalo PR?"
        options := ["0,06-0,10s", "0,12-0,20s", "0,20-0,30s", "0,30-0,40s"]
        correct := 1
        explanation := "O intervalo PR normal varia de 0,12 a 0,20 segundos, representando o tempo de condução atrioventricular." }
      1 2 0 none rfl rfl rfl).2.1⟩

/-- C1. For every category with a bank in `quizData` and every sequence of option indices, one
per question of the bank, `startQuiz` followed by one round per index (tick the option, press
"Responder", then `nextQuestion()`) runs every call to its end and finishes on the summary, with
`currentQuestion` at the bank length and the score equal to the number of rounds whose selected
index is the correct index of the question of that round; the score is at most the bank
length. -/
theorem startQuiz_rounds_score (content : Content) (category : String)
    (bank : List Question) (sels : List Nat)
    (hreg : quizData category = some bank) (hlen : sels.length = bank.length)
    (hvalid : ∀ sel ∈ sels, sel < 4) :
    (startQuiz content category).1 = Outcome.done ∧
    ∃ r, playRounds (startQuiz content category).2 sels = some r ∧
      r.currentQuestion = bank.length ∧
      r.score = correctCount sels bank ∧
      r.score ≤ bank.length ∧
      r.content = Content.finalView r.score bank.length (percentageOf r.score bank.length)
        (performanceMsg (percentageOf r.score bank.length)) category := by
  have hpos := quizData_ne_nil hreg
  have h0 : bank[0]? = some bank[0] := List.getElem?_eq_getElem hpos
  have hstart : startQuiz content category =
      (Outcome.done,
        { category := category, questions := some bank, currentQuestion := 0, score := 0,
          content := Content.questionView 1 bank.length bank[0] none 0 }) := by
    simp [startQuiz, showQuestion, hreg, h0]
  rw [hstart]
  refine ⟨rfl, ?_⟩
  obtain ⟨r, h1, h2, h3, h4⟩ := playRounds_spec bank
    (fun q hq => (quizData_options hreg q hq).1) sels
    { category := category, questions := some bank, currentQuestion := 0, score := 0,
      content := Content.questionView 1 bank.length bank[0] none 0 }
    bank[0] 1 bank.length 0 none rfl h0 rfl (by simpa using hlen) hvalid
  simp only [List.drop_zero, Nat.zero_add] at h3
  exact ⟨r, h1, h2, h3, h3 ▸ correctCount_le sels bank, h4⟩

/-- Witness of C1: `basics` played with the options 1 and 3; the first is correct, the second
is not. -/
theorem startQuiz_rounds_score_witness :
    quizData "basics" = some basics ∧ [1, 3].length = basics.length ∧
    (∀ sel ∈ [1, 3], sel < 4) ∧
    (startQuiz Content.other "basics").1 = Outcome.done ∧
    ∃ r, playRounds (startQuiz Content.other "basics").2 [1, 3] = some r ∧
      r.currentQuestion = basics.length ∧
      r.score = correctCount [1, 3] basics ∧
      r.score ≤ basics.length ∧
      r.content = Content.finalView r.score basics.length (percentageOf r.score basics.length)
        (performanceMsg (percentageOf r.score basics.length)) "basics" :=
  ⟨by decide, by decide, by decide,
    startQuiz_rounds_score Content.other "basics" basics [1, 3] (by decide) (by decide)
      (by decide)⟩

/-- C8, as stated, fails: on `rhythms`, whose bank has one question, the question is answered
and `nextQuestion()` shows the summary; one more `nextQuestion()` call, which nothing in the
handler turns down, leaves `currentQuestion` at 2, above the bank length. -/
theorem nextQuestion_passes_bank_length :
    quizData "rhythms" = some rhythms ∧ rhythms.length = 1 ∧
    (calls (startQuiz Content.other "rhythms").2
      [Call.tick 2, Call.checkAnswer 2, Call.nextQuestion]).currentQuestion = 1 ∧
    (calls (startQuiz Content.other "rhythms").2
      [Call.tick 2, Call.checkAnswer 2, Call.nextQuestion, Call.nextQuestion]).currentQuestion
      = 2 := by
  decide

/-- C9, as stated, fails: on the first question of `basics`, after the correct option is ticked
and `checkAnswer(1)` has run, the score is 1 while `currentQuestion` is still 0. -/
theorem score_exceeds_currentQuestion :
    (calls (startQuiz Content.other "basics").2 [Call.tick 1, Call.checkAnswer 1]).score = 1 ∧
    (calls (startQuiz Content.other "basics").2
      [Call.tick 1, Call.checkAnswer 1]).currentQuestion = 0 := by
  decide

/-- C9, amended. In every state reached from `startQuiz` on a registered category by any
sequence of ticks, `checkAnswer` calls and `nextQuestion()` calls, the score is at most
`currentQuestion + 1`, and it is at most `currentQuestion` whenever no result is on display
(a question awaits its answer, or the summary is shown). -/
theorem score_le_currentQuestion_succ (content : Content) (category : String)
    (bank : List Question) (cs : List Call)
    (hreg : quizData category = some bank) :
    (calls (startQuiz content category).2 cs).score ≤
      (calls (startQuiz content category).2 cs).currentQuestion + 1 ∧
    (showsResult (calls (startQuiz content category).2 cs).content = false →
      (calls (startQuiz content category).2 cs).score ≤
        (calls (startQuiz content category).2 cs).currentQuestion) := by
  have h := sound_calls bank cs _ (sound_start content category bank hreg)
  exact ⟨h.2.1, h.2.2.1⟩

/-- Witness of the amended C9: `basics`, first question answered correctly and advanced. -/
theorem score_le_currentQuestion_succ_witness :
    quizData "basics" = some basics ∧
    (calls (startQuiz Content.other "basics").2
      [Call.tick 1, Call.checkAnswer 1, Call.nextQuestion]).score ≤
      (calls (startQuiz Content.other "basics").2
        [Call.tick 1, Call.checkAnswer 1, Call.nextQuestion]).currentQuestion + 1 ∧
    (showsResult (calls (startQuiz Content.other "basics").2
        [Call.tick 1, Call.checkAnswer 1, Call.nextQuestion]).content = false →
      (calls (startQuiz Content.other "basics").2
        [Call.tick 1, Call.checkAnswer 1, Call.nextQuestion]).score ≤
        (calls (startQuiz Content.other "basics").2
          [Call.tick 1, Call.checkAnswer 1, Call.nextQuestion]).currentQuestion) :=
  ⟨by decide,
    score_le_currentQuestion_succ Content.other "basics" basics
      [Call.tick 1, Call.checkAnswer 1, Call.nextQuestion] (by decide)⟩

/-- C11. For every category with a bank in `quizData`, of length N, `startQuiz` runs to its end
with `currentQuestion = 0` and `score = 0` and shows the first question of the bank, not ticked,
with the score line "Pontuação: 0/N". The result does not depend on what the document showed
before (the closure variables are fresh in every call), and pressing "Refazer Quiz" on the
summary of a quiz of that category gives exactly the result of a fresh `startQuiz`. -/
theorem startQuiz_fresh (content : Content) (category : String) (bank : List Question)
    (hreg : quizData category = some bank) :
    ∃ q, bank[0]? = some q ∧
      startQuiz content category =
        (Outcome.done,
          { category := category, questions := some bank, currentQuestion := 0, score := 0,
            content := Content.questionView 1 bank.length q none 0 }) ∧
      scoreLine (startQuiz content category).2.content =
        some ("Pontuação: 0/" ++ toString bank.length) ∧
      (∀ earlier : Content, startQuiz earlier category = startQuiz content category) ∧
      (∀ (p : Page) (score total percentage : Nat) (msg : String),
        p.content = Content.finalView score total percentage msg category →
          refazerQuiz p = some (startQuiz content category)) := by
  obtain ⟨q, h0, hs⟩ := startQuiz_registered content category bank hreg
  refine ⟨q, h0, hs, ?_, ?_, ?_⟩
  · rw [hs]
    simp [scoreLine]
    rfl
  · intro earlier
    obtain ⟨q2, h2, hs2⟩ := startQuiz_registered earlier category bank hreg
    rw [hs, hs2]
    rw [h0] at h2
    cases h2
    rfl
  · intro p score total percentage msg hp
    obtain ⟨q2, h2, hs2⟩ := startQuiz_registered p.content category bank hreg
    unfold refazerQuiz
    rw [hp]
    simp only []
    rw [← hp, hs, hs2]
    rw [h0] at h2
    cases h2
    rfl

/-- Witness of C11 on `basics`: the start page shows question 1 of 2 with "Pontuação: 0/2". -/
theorem startQuiz_fresh_witness :
    quizData "basics" = some basics ∧
    ∃ q, basics[0]? = some q ∧
      startQuiz Content.other "basics" =
        (Outcome.done,
          { category := "basics", questions := some basics, currentQuestion := 0, score := 0,
            content := Content.questionView 1 basics.length q none 0 }) ∧
      scoreLine (startQuiz Content.other "basics").2.content =
        some ("Pontuação: 0/" ++ toString basics.length) ∧
      (∀ earlier : Content, startQuiz earlier "basics" = startQuiz Content.other "basics") ∧
      (∀ (p : Page) (score total percentage : Nat) (msg : String),
        p.content = Content.finalView score total percentage msg "basics" →
          refazerQuiz p = some (startQuiz Content.other "basics")) :=
  ⟨by decide, startQuiz_fresh Content.other "basics" basics (by decide)⟩

/-- C18. Every question of every bank of `quizData` (the keys `basics`, `rhythms` and
`hypertrophy`, which are the registered ones) has exactly 4 options and a correct index that
is at least 0 and below the number of options. -/
theorem quizData_questions_wellformed (category : String) (bank : List Question)
    (hreg : quizData category = some bank) :
    (category = "basics" ∨ category = "rhythms" ∨ category = "hypertrophy") ∧
    ∀ q ∈ bank, q.options.length = 4 ∧ 0 ≤ q.correct ∧ q.correct < q.options.length := by
  constructor
  · unfold quizData at hreg
    split_ifs at hreg with h1 h2 h3
    · exact Or.inl h1
    · exact Or.inr (Or.inl h2)
    · exact Or.inr (Or.inr h3)
  · rcases quizData_cases hreg with rfl | rfl | rfl <;> decide

/-- Witness of C18 on `hypertrophy`. -/
theorem quizData_questions_wellformed_witness :
    quizData "hypertrophy" = some hypertrophy ∧
    ("hypertrophy" = "basics" ∨ "hypertrophy" = "rhythms" ∨ "hypertrophy" = "hypertrophy") ∧
    ∀ q ∈ hypertrophy, q.options.length = 4 ∧ 0 ≤ q.correct ∧ q.correct < q.options.length :=
  ⟨by decide, quizData_questions_wellformed "hypertrophy" hypertrophy (by decide)⟩

/-- C19. On a page whose document shows the current question `q` of the bank with an option
ticked, the button that `checkAnswer(q.correct)` renders is labelled "Ver Resultado", and not
"Próxima Questão", exactly when the `nextQuestion()` that follows shows the summary and not
another question, which is exactly when `currentQuestion + 1` is the bank length. -/
theorem nextLabel_announces_summary (p : Page) (bank : List Question) (q : Question)
    (number total shown value : Nat)
    (hq : p.questions = some bank) (hcur : bank[p.currentQuestion]? = some q)
    (hview : p.content = Content.questionView number total q (some value) shown) :
    (∃ b, (checkAnswer p q.correct).2.content =
      Content.resultView number total b q.explanation
        (nextLabel p.currentQuestion bank.length) shown) ∧
    (nextLabel p.currentQuestion bank.length = "Ver Resultado" ∨
      nextLabel p.currentQuestion bank.length = "Próxima Questão") ∧
    (nextLabel p.currentQuestion bank.length = "Ver Resultado" ↔
      showsSummary (nextQuestion (checkAnswer p q.correct).2).2.content = true) ∧
    (nextLabel p.currentQuestion bank.length = "Próxima Questão" ↔
      showsQuestion (nextQuestion (checkAnswer p q.correct).2).2.content = true) ∧
    (nextLabel p.currentQuestion bank.length = "Ver Resultado" ↔
      p.currentQuestion + 1 = bank.length) := by
  have hlt : p.currentQuestion < bank.length := by
    by_contra hge
    rw [List.getElem?_eq_none (by omega)] at hcur
    simp at hcur
  rw [checkAnswer_of_checked p bank q number total shown value q.correct q hq hcur hview]
  refine ⟨⟨_, rfl⟩, ?_⟩
  by_cases hmore : p.currentQuestion + 1 < bank.length
  · rw [nextQuestion_more
      { p with
        score := p.score + (if value = q.correct then 1 else 0)
        content := Content.resultView number total (decide (value = q.correct)) q.explanation
          (nextLabel p.currentQuestion bank.length) shown }
      bank _ hq (List.getElem?_eq_getElem hmore)]
    have hl : nextLabel p.currentQuestion bank.length = "Próxima Questão" := by
      simp [nextLabel, hmore]
    rw [hl]
    have hne : ("Próxima Questão" : String) ≠ "Ver Resultado" := by decide
    refine ⟨Or.inr rfl, ?_, ?_, ?_⟩
    · simp [hne, showsSummary]
    · simp [showsQuestion]
    · constructor
      · intro h; exact absurd h hne
      · intro h; omega
  · rw [nextQuestion_last
      { p with
        score := p.score + (if value = q.correct then 1 else 0)
        content := Content.resultView number total (decide (value = q.correct)) q.explanation
          (nextLabel p.currentQuestion bank.length) shown }
      bank hq (by simpa using hmore)]
    have hl : nextLabel p.currentQuestion bank.length = "Ver Resultado" := by
      simp [nextLabel, hmore]
    rw [hl]
    have hne : ("Ver Resultado" : String) ≠ "Próxima Questão" := by decide
    refine ⟨Or.inl rfl, ?_, ?_, ?_⟩
    · simp [showsSummary]
    · simp [hne, showsQuestion]
    · constructor
      · intro _; omega
      · intro _; rfl

/-- Witness of C19 on `rhythms`, whose only question is the last one. -/
theorem nextLabel_announces_summary_witness :
    (nextLabel 0 rhythms.length = "Ver Resultado" ↔
      showsSummary (nextQuestion
        (checkAnswer (tick 0 (startQuiz Content.other "rhythms").2) 2).2).2.content = true) ∧
    (nextLabel 0 rhythms.length = "Ver Resultado" ↔ 0 + 1 = rhythms.length) :=
  ⟨(nextLabel_announces_summary (tick 0 (startQuiz Content.other "rhythms").2) rhythms
      { question := "Na fibrilação atrial, qual característica é típica?"
        options := ["Ondas P regulares", "QRS alargado", "Ritmo irregular", "Bradicardia"]
        correct := 2
        explanation := "A fibrilação atrial caracteriza-se pela ausência de ondas P e ritmo irregular." }
      1 1 0 0 rfl rfl rfl).2.2.1,
    (nextLabel_announces_summary (tick 0 (startQuiz Content.other "rhythms").2) rhythms
      { question := "Na fibrilação atrial, qual característica é típica?"
        options := ["Ondas P regulares", "QRS alargado", "Ritmo irregular", "Bradicardia"]
        correct := 2
        explanation := "A fibrilação atrial caracteriza-se pela ausência de ondas P e ritmo irregular." }
      1 1 0 0 rfl rfl rfl).2.2.2.2⟩

/-- C13. `calculateSokolow` has no error path: for every pair of parsed inputs, each of which
may be NaN (the field is empty or holds no number), it runs to its end and writes a result,
whose total is the sum in which a NaN input counts as 0. So an absent first input with the
second input `x` gives the total of `0 + x`, which is `x`, and two absent inputs give the total
0 and the negative verdict. -/
theorem calculateSokolow_no_error (add : ℚ → ℚ → Num) (sv1 rv5 : Option ℚ) (x : ℚ) :
    (∃ r, calculateSokolow add sv1 rv5 = (Outcome.done, some r) ∧
      r.total = add (sv1.getD 0) (rv5.getD 0)) ∧
    calculateSokolow add none rv5 = calculateSokolow add (some 0) rv5 ∧
    calculateSokolow add sv1 none = calculateSokolow add sv1 (some 0) ∧
    (∃ r, calculateSokolow addExact none (some x) = (Outcome.done, some r) ∧
      r.total = Num.fin x) ∧
    calculateSokolow addExact none none =
      (Outcome.done,
        some
          { total := Num.fin 0, cssClass := "negative"
            message := "✗ Critério negativo para HVE" }) := by
  have hz : ∀ v : Option ℚ, orZero v = v.getD 0 := by
    intro v
    cases v with
    | none => rfl
    | some q =>
      simp only [orZero, Option.getD_some]
      split_ifs with h
      · exact h.symm
      · rfl
  refine ⟨⟨_, rfl, ?_⟩, ?_, ?_, ⟨_, rfl, ?_⟩, ?_⟩
  · simp only [hz]
  · simp [calculateSokolow, hz]
  · simp [calculateSokolow, hz]
  · simp [hz, addExact]
  · simp [calculateSokolow, addExact, orZero, Num.ge]

/-- C14, as stated, fails: with the negative input `qt = -400` and `rr = 1000`, `calculateQTc`
does not alert. It runs to its end and writes a result: "-400ms" and the interpretation
"QT curto". -/
theorem calculateQTc_accepts_negative :
    calculateQTc bazettUnitRR (some (-400)) (some 1000) "male" =
      (Outcome.done, some { shown := Num.fin (-400), interpretation := "QT curto" }) := by
  simp [calculateQTc, bazettUnitRR, Math.round, interpretation, Num.lt]
  norm_num

/-- C14, amended. For all parsed inputs `qt` and `rr` and every `gender`, `calculateQTc` ends
with the alert "Preencha todos os campos!" and writes no result exactly when `qt` or `rr` is
NaN (absent or not a number) or zero; it runs to its end and writes a result exactly when both
are numbers other than zero, negative ones included. -/
theorem calculateQTc_guard (bazett : ℚ → ℚ → Num) (qt rr : Option ℚ) (gender : String) :
    (calculateQTc bazett qt rr gender = (Outcome.alert "Preencha todos os campos!", none) ↔
      (qt = none ∨ qt = some 0 ∨ rr = none ∨ rr = some 0)) ∧
    (((calculateQTc bazett qt rr gender).1 = Outcome.done ∧
        (calculateQTc bazett qt rr gender).2.isSome = true) ↔
      ∃ a b, qt = some a ∧ rr = some b ∧ a ≠ 0 ∧ b ≠ 0) := by
  cases qt with
  | none => simp [calculateQTc]
  | some a =>
    cases rr with
    | none => simp [calculateQTc]
    | some b =>
      by_cases h : a = 0 ∨ b = 0
      · have hab : ¬ (¬ a = 0 ∧ ¬ b = 0) := by tauto
        simp [calculateQTc, h, hab]
      · have hab : ¬ a = 0 ∧ ¬ b = 0 := by tauto
        simp [calculateQTc, h, hab]

/-- C15. For every finite computed value `qtc`: below 350 the interpretation is "QT curto" for
both sexes; for `male` it is "Normal" from 350 to below 450, "Limítrofe" from 450 to below 470
and "Prolongado" from 470 on; for `female` it is "Normal" from 350 to below 470, "Limítrofe"
from 470 to below 480 and "Prolongado" from 480 on. -/
theorem interpretation_bands (qtc : ℚ) :
    (interpretation (Num.fin qtc) "male" = "QT curto" ↔ qtc < 350) ∧
    (interpretation (Num.fin qtc) "male" = "Normal" ↔ 350 ≤ qtc ∧ qtc < 450) ∧
    (interpretation (Num.fin qtc) "male" = "Limítrofe" ↔ 450 ≤ qtc ∧ qtc < 470) ∧
    (interpretation (Num.fin qtc) "male" = "Prolongado" ↔ 470 ≤ qtc) ∧
    (interpretation (Num.fin qtc) "female" = "QT curto" ↔ qtc < 350) ∧
    (interpretation (Num.fin qtc) "female" = "Normal" ↔ 350 ≤ qtc ∧ qtc < 470) ∧
    (interpretation (Num.fin qtc) "female" = "Limítrofe" ↔ 470 ≤ qtc ∧ qtc < 480) ∧
    (interpretation (Num.fin qtc) "female" = "Prolongado" ↔ 480 ≤ qtc) := by
  have hf : ¬ (("female" : String) = "male") := by decide
  simp only [interpretation, Num.lt, hf, if_true, if_false, decide_eq_true_eq]
  refine ⟨?_, ?_, ?_, ?_, ?_, ?_, ?_, ?_⟩ <;>
    (split_ifs <;> simp <;> (try constructor) <;> (try intros) <;> linarith)

/-- C8, amended. In every state reached from `startQuiz` on a registered category by a sequence
of ticks, `checkAnswer` calls and `nextQuestion()` calls in which no `nextQuestion()` is called
while the summary is on display, `currentQuestion` is at most the bank length (and at least 0,
being a natural number). A `nextQuestion()` called on a question or on a result is allowed. -/
theorem currentQuestion_le_length (content : Content) (category : String)
    (bank : List Question) (cs : List Call)
    (hreg : quizData category = some bank)
    (hstay : staysOffSummary (startQuiz content category).2 cs = true) :
    0 ≤ (calls (startQuiz content category).2 cs).currentQuestion ∧
    (calls (startQuiz content category).2 cs).currentQuestion ≤ bank.length := by
  refine ⟨Nat.zero_le _, ?_⟩
  obtain ⟨q, _, hs⟩ := startQuiz_registered content category bank hreg
  apply offSummary_calls bank cs _ _ _ _ hstay
  · rw [hs]
  · rw [hs]; exact Nat.zero_le _
  · rw [hs]
    intro _
    exact quizData_ne_nil hreg

/-- Witness of the amended C8: on `basics`, two `nextQuestion()` calls on unanswered questions
reach the summary with `currentQuestion` at the bank length. -/
theorem currentQuestion_le_length_witness :
    quizData "basics" = some basics ∧
    staysOffSummary (startQuiz Content.other "basics").2
      [Call.nextQuestion, Call.nextQuestion] = true ∧
    0 ≤ (calls (startQuiz Content.other "basics").2
      [Call.nextQuestion, Call.nextQuestion]).currentQuestion ∧
    (calls (startQuiz Content.other "basics").2
      [Call.nextQuestion, Call.nextQuestion]).currentQuestion ≤ basics.length :=
  ⟨by decide, by decide,
    currentQuestion_le_length Content.other "basics" basics
      [Call.nextQuestion, Call.nextQuestion] (by decide) (by decide)⟩

/-- C6. On a page of a quiz on a bank (not empty, and with length and score below `2 ^ 32`,
as they are in every state of the program), whatever is on display and in particular a
result, `nextQuestion()` runs to its end, raises `currentQuestion` by exactly 1 and leaves the
score unchanged. When the new index is below the bank length the document shows the question
at the new index; otherwise it shows the summary, with the score, the bank length as total and
a percentage that is `round (100 * score / total)` or one below it. It is
`round (100 * score / total)` whenever `100 * score / total` is not halfway between two
integers, and so for every bank of `quizData`; at a halfway point the double product can fall
below the half: 23 of 40 gives 57. -/
theorem nextQuestion_advances (bank : List Question) (p : Page)
    (hq : p.questions = some bank) (hlen : 0 < bank.length) (hlen2 : bank.length < 2 ^ 32)
    (hscore : p.score < 2 ^ 32) :
    (nextQuestion p).1 = Outcome.done ∧
    (nextQuestion p).2.currentQuestion = p.currentQuestion + 1 ∧
    (nextQuestion p).2.score = p.score ∧
    (p.currentQuestion + 1 < bank.length →
      ∃ q, bank[p.currentQuestion + 1]? = some q ∧
        (nextQuestion p).2.content =
          Content.questionView (p.currentQuestion + 2) bank.length q none p.score) ∧
    (bank.length ≤ p.currentQuestion + 1 →
      ∃ percentage : Nat,
        (nextQuestion p).2.content =
          Content.finalView p.score bank.length percentage (performanceMsg percentage)
            p.category ∧
        round (100 * (p.score : ℚ) / (bank.length : ℚ)) - 1 ≤ (percentage : Int) ∧
        (percentage : Int) ≤ round (100 * (p.score : ℚ) / (bank.length : ℚ)) ∧
        (¬ (2 * bank.length ∣ 200 * p.score + bank.length) →
          (percentage : Int) = round (100 * (p.score : ℚ) / (bank.length : ℚ))) ∧
        ((∃ category, quizData category = some bank) →
          (percentage : Int) = round (100 * (p.score : ℚ) / (bank.length : ℚ)))) ∧
    percentageOf 23 40 = 57 := by
  have h2340 : percentageOf 23 40 = 57 := by
    unfold percentageOf
    rw [roundDouble_eq _ (-1) 5179139571476070 (by norm_num) (by norm_num [abs_of_pos])
      (by norm_num [abs_of_pos]) (by norm_num [abs_lt]) (by norm_num [abs_lt])]
    simp only []
    rw [roundDouble_eq _ 5 8092405580431359 (by norm_num) (by norm_num [abs_of_pos])
      (by norm_num [abs_of_pos]) (by norm_num [abs_lt]) (by norm_num [abs_lt])]
    simp only [Math.round]
    norm_num
    rfl
  by_cases hlt : p.currentQuestion + 1 < bank.length
  · have hnext : bank[p.currentQuestion + 1]? = some (bank[p.currentQuestion + 1]) :=
      List.getElem?_eq_getElem hlt
    rw [nextQuestion_more p bank _ hq hnext]
    exact ⟨rfl, rfl, rfl, fun _ => ⟨_, hnext, rfl⟩, fun h => absurd hlt (by omega), h2340⟩
  · rw [nextQuestion_last p bank hq (by omega)]
    obtain ⟨b, hb1, hb2⟩ := percentageOf_near p.score bank.length hlen hlen2 hscore
    obtain ⟨f1, f2, f3⟩ := floor_half_of_near p.score bank.length hlen b hb2
    refine ⟨rfl, rfl, rfl, fun h => absurd h hlt, fun _ => ⟨_, rfl, ?_, ?_, ?_, ?_⟩, h2340⟩
    · rw [hb1]; exact f1
    · rw [hb1]; exact f2
    · intro hnd
      rw [hb1]
      exact f3 hnd
    · rintro ⟨category, hreg⟩
      rw [hb1]
      apply f3
      rcases quizData_cases hreg with rfl | rfl | rfl
      · simp only [basics, List.length_cons, List.length_nil]; omega
      · simp only [rhythms, List.length_cons, List.length_nil]; omega
      · simp only [hypertrophy, List.length_cons, List.length_nil]; omega

/-- Witness of C6: the only question of `rhythms` answered correctly; `nextQuestion()` then
shows the summary. -/
theorem nextQuestion_advances_witness :
    (checkAnswer (tick 2 (startQuiz Content.other "rhythms").2) 2).2.questions = some rhythms ∧
    0 < rhythms.length ∧ rhythms.length < 2 ^ 32 ∧
    (checkAnswer (tick 2 (startQuiz Content.other "rhythms").2) 2).2.score < 2 ^ 32 ∧
    (nextQuestion (checkAnswer (tick 2 (startQuiz Content.other "rhythms").2) 2).2).1 =
      Outcome.done ∧
    (nextQuestion (checkAnswer (tick 2 (startQuiz Content.other "rhythms").2) 2).2).2.currentQuestion
      = (checkAnswer (tick 2 (startQuiz Content.other "rhythms").2) 2).2.currentQuestion + 1 :=
  ⟨by decide, by decide, by decide, by decide,
    (nextQuestion_advances rhythms (checkAnswer (tick 2 (startQuiz Content.other "rhythms").2) 2).2
      (by decide) (by decide) (by decide) (by decide)).1,
    (nextQuestion_advances rhythms (checkAnswer (tick 2 (startQuiz Content.other "rhythms").2) 2).2
      (by decide) (by decide) (by decide) (by decide)).2.1⟩

/-- C10, as stated, fails: `startQuiz("constructor")`, a name with no bank, stops on the
`TypeError`, but it has by then bound the handlers to a closure whose `questions` is the
inherited function `Object`, of length 1: a following `nextQuestion()` runs to its end and
shows the summary "0 de 1 questões (0%)". -/
theorem startQuiz_unregistered_leaves_session :
    quizData "constructor" = none ∧
    (startQuiz Content.other "constructor").1 = Outcome.typeError ∧
    nextQuestion (startQuiz Content.other "constructor").2 =
      (Outcome.done,
        { category := "constructor", questions := none, currentQuestion := 1, score := 0,
          content := Content.finalView 0 1 0 "Continue estudando. A prática leva à perfeição!"
            "constructor" }) := by
  refine ⟨by decide, by decide, ?_⟩
  have h : (startQuiz Content.other "constructor").2 =
      { category := "constructor", questions := none, currentQuestion := 0, score := 0,
        content := Content.other } := by decide
  rw [h]
  have hi : inherited "constructor" = some (some 1) := by decide
  simp only [nextQuestion, hi, belowLength, memberSummary]
  simp [percentageOf_zero, performanceMsg]

/-- C10, amended. For a category that is no key of `quizData`, `startQuiz` stops on the uncaught
`TypeError` of `showQuestion` and renders nothing: the document is left as it was. It has by
then bound the handlers to fresh closure variables, `currentQuestion = 0` and `score = 0`, for
that category, which hold none of the banks. -/
theorem startQuiz_unregistered (content : Content) (category : String)
    (h : quizData category = none) :
    (startQuiz content category).1 = Outcome.typeError ∧
    (startQuiz content category).2.content = content ∧
    (startQuiz content category).2.currentQuestion = 0 ∧
    (startQuiz content category).2.score = 0 ∧
    (startQuiz content category).2.category = category ∧
    ∀ bank, (startQuiz content category).2.questions ≠ some bank := by
  simp [startQuiz, showQuestion, h]

/-- Witness of the amended C10: the category "anatomy" has no bank. -/
theorem startQuiz_unregistered_witness :
    quizData "anatomy" = none ∧
    (startQuiz Content.other "anatomy").1 = Outcome.typeError ∧
    (startQuiz Content.other "anatomy").2.content = Content.other ∧
    (startQuiz Content.other "anatomy").2.currentQuestion = 0 ∧
    (startQuiz Content.other "anatomy").2.score = 0 ∧
    (startQuiz Content.other "anatomy").2.category = "anatomy" ∧
    ∀ bank, (startQuiz Content.other "anatomy").2.questions ≠ some bank :=
  ⟨by decide, startQuiz_unregistered Content.other "anatomy" (by decide)⟩

/-- C12, as stated, fails: the total is a double sum, which is rounded. With the inputs
34.99999999999999 and 0.000000000000005 (as parsed: the two doubles below) the exact sum is
below 35, yet the total that `calculateSokolow` reports is 35 and the verdict is positive. -/
theorem calculateSokolow_rounds_total :
    (4925812092436479 / 140737488355328 : ℚ) +
      6338253001141147 / 1267650600228229401496703205376 < 35 ∧
    calculateSokolow addDouble (some (4925812092436479 / 140737488355328))
      (some (6338253001141147 / 1267650600228229401496703205376)) =
      (Outcome.done,
        some
          { total := Num.fin 35, cssClass := "positive"
            message := "✓ Critério positivo para HVE" }) := by
  refine ⟨by norm_num, ?_⟩
  have h : addDouble (4925812092436479 / 140737488355328)
      (6338253001141147 / 1267650600228229401496703205376) = Num.fin 35 := by
    unfold addDouble
    rw [roundDouble_eq _ 5 4925812092436480 (by norm_num) (by norm_num [abs_of_pos])
      (by norm_num [abs_of_pos]) (by norm_num [abs_lt]) (by norm_num [abs_lt])]
    norm_num
  have ha : orZero (some (4925812092436479 / 140737488355328)) =
      4925812092436479 / 140737488355328 := by
    simp only [orZero]
    norm_num
  have hb : orZero (some (6338253001141147 / 1267650600228229401496703205376)) =
      6338253001141147 / 1267650600228229401496703205376 := by
    simp only [orZero]
    norm_num
  simp only [calculateSokolow, ha, hb, h]
  simp [Num.ge]

/-- C12, amended. For all numeric inputs `sv1` and `rv5`, `calculateSokolow` reports as total
the double sum of the two, which is `sv1 + rv5` rounded to the nearest double: within
`2 ^ (-53)` of it in proportion, and equal to it where the sum is a double, as for 20 and 15
(total 35) and for 10 and 10 (total 20). Its verdict is the positive one exactly when the
reported total is at least 35 and the negative one otherwise; so a positive verdict needs
`35 ≤ (sv1 + rv5) * (1 + 2 ^ (-53))` and a negative one `(sv1 + rv5) * (1 - 2 ^ (-53)) < 35`. -/
theorem calculateSokolow_total (sv1 rv5 : ℚ) :
    (∃ r, calculateSokolow addDouble (some sv1) (some rv5) = (Outcome.done, some r) ∧
      r.total = roundDouble (sv1 + rv5) ∧
      (r.message = "✓ Critério positivo para HVE" ↔ r.total.ge 35 = true) ∧
      (r.message = "✗ Critério negativo para HVE" ↔ r.total.ge 35 = false) ∧
      (r.cssClass = "positive" ↔ r.total.ge 35 = true) ∧
      (r.cssClass = "negative" ↔ r.total.ge 35 = false)) ∧
    ((2 : ℚ) ^ (-1022 : ℤ) ≤ |sv1 + rv5| → |sv1 + rv5| < (2 : ℚ) ^ (1023 : ℤ) →
      ∃ t : ℚ, roundDouble (sv1 + rv5) = Num.fin t ∧
        |t - (sv1 + rv5)| ≤ |sv1 + rv5| / 2 ^ 53 ∧
        ((Num.fin t).ge 35 = true → 35 ≤ (sv1 + rv5) * (1 + 1 / 2 ^ 53)) ∧
        ((Num.fin t).ge 35 = false → (sv1 + rv5) * (1 - 1 / 2 ^ 53) < 35)) ∧
    calculateSokolow addDouble (some 20) (some 15) =
      (Outcome.done,
        some
          { total := Num.fin 35, cssClass := "positive"
            message := "✓ Critério positivo para HVE" }) ∧
    calculateSokolow addDouble (some 10) (some 10) =
      (Outcome.done,
        some
          { total := Num.fin 20, cssClass := "negative"
            message := "✗ Critério negativo para HVE" }) := by
  have ha : orZero (some sv1) = sv1 := by
    simp only [orZero]
    split_ifs with h
    · exact h.symm
    · rfl
  have hb : orZero (some rv5) = rv5 := by
    simp only [orZero]
    split_ifs with h
    · exact h.symm
    · rfl
  refine ⟨⟨_, rfl, ?_, ?_, ?_, ?_, ?_⟩, ?_, ?_, ?_⟩
  · simp only [ha, hb, addDouble]
  · simp only [ha, hb]
    cases (addDouble sv1 rv5).ge 35 <;> simp
  · simp only [ha, hb]
    cases (addDouble sv1 rv5).ge 35 <;> simp
  · simp only [ha, hb]
    cases (addDouble sv1 rv5).ge 35 <;> simp
  · simp only [ha, hb]
    cases (addDouble sv1 rv5).ge 35 <;> simp
  · intro hlo hhi
    obtain ⟨t, ht, herr, _⟩ := roundDouble_accurate (sv1 + rv5) hlo hhi
    refine ⟨t, ht, herr, ?_, ?_⟩
    · intro hge
      simp only [Num.ge, decide_eq_true_eq] at hge
      rw [abs_le] at herr
      rcases le_or_lt 0 (sv1 + rv5) with hs | hs
      · rw [abs_of_nonneg hs] at herr
        linarith
      · rw [abs_of_neg hs] at herr
        linarith
    · intro hlt
      simp only [Num.ge, decide_eq_false_iff_not, not_le] at hlt
      rw [abs_le] at herr
      rcases le_or_lt 0 (sv1 + rv5) with hs | hs
      · rw [abs_of_nonneg hs] at herr
        linarith
      · have : (sv1 + rv5) * (1 - 1 / 2 ^ 53) < 0 := by
          apply mul_neg_of_neg_of_pos hs
          norm_num
        linarith
  · have h : addDouble 20 15 = Num.fin 35 := by
      unfold addDouble
      rw [roundDouble_eq _ 5 4925812092436480 (by norm_num) (by norm_num [abs_of_pos])
        (by norm_num [abs_of_pos]) (by norm_num [abs_lt]) (by norm_num [abs_lt])]
      norm_num
    have h20 : orZero (some 20) = 20 := by simp only [orZero]; norm_num
    have h15 : orZero (some 15) = 15 := by simp only [orZero]; norm_num
    simp only [calculateSokolow, h20, h15, h]
    simp [Num.ge]
  · have h : addDouble 10 10 = Num.fin 20 := by
      unfold addDouble
      rw [roundDouble_eq _ 4 5629499534213120 (by norm_num) (by norm_num [abs_of_pos])
        (by norm_num [abs_of_pos]) (by norm_num [abs_lt]) (by norm_num [abs_lt])]
      norm_num
    have h10 : orZero (some 10) = 10 := by simp only [orZero]; norm_num
    simp only [calculateSokolow, h10, h]
    simp [Num.ge]
    norm_num
/-- C17. For all inputs that pass the guard and for every evaluation of the expression
`qt / Math.sqrt(rr / 1000)`, `calculateQTc` shows `Math.round` of the computed `qtc` and
interprets the computed `qtc` itself, not the rounded value. So whenever the computed `qtc` is
at least 449.5 and below 450, the result for `male` shows 450 with the interpretation
"Normal", although 450 itself is "Limítrofe"; and so it is, in double arithmetic, for the
input 449.6 (as parsed: the double below) with `rr = 1000`. -/
theorem calculateQTc_shows_rounded (bazett : ℚ → ℚ → Num) (qt rr : ℚ)
    (hqt : qt ≠ 0) (hrr : rr ≠ 0) :
    (∀ gender,
      calculateQTc bazett (some qt) (some rr) gender =
        (Outcome.done,
          some
            { shown := Math.round (bazett qt rr)
              interpretation := interpretation (bazett qt rr) gender })) ∧
    (∀ v : ℚ, bazett qt rr = Num.fin v → 449.5 ≤ v → v < 450 →
      calculateQTc bazett (some qt) (some rr) "male" =
        (Outcome.done, some { shown := Num.fin 450, interpretation := "Normal" })) ∧
    interpretation (Num.fin 450) "male" = "Limítrofe" ∧
    calculateQTc bazettDouble (some (3954723422784717 / 8796093022208)) (some 1000) "male" =
      (Outcome.done, some { shown := Num.fin 450, interpretation := "Normal" }) := by
  have hmale : ∀ v : ℚ, 449.5 ≤ v → v < 450 →
      interpretation (Num.fin v) "male" = "Normal" := by
    intro v hlo hhi
    have h350 : ¬ v < 350 := by linarith
    simp [interpretation, Num.lt, h350, hhi]
  refine ⟨fun gender => calculateQTc_of_ne bazett qt rr gender hqt hrr, ?_, ?_, ?_⟩
  · intro v hv hlo hhi
    rw [calculateQTc_of_ne bazett qt rr "male" hqt hrr, hv,
      round_interpret_of_bounds v 450 "male" "Normal" (by push_cast; linarith)
        (by push_cast; linarith) (hmale v hlo hhi)]
    norm_num
  · simp [interpretation, Num.lt]
    norm_num
  · have hb : bazettDouble (3954723422784717 / 8796093022208) 1000 =
        Num.fin (3954723422784717 / 8796093022208) := by
      rw [bazettDouble_unit,
        roundDouble_eq _ 8 7909446845569434 (by norm_num) (by norm_num [abs_of_pos])
          (by norm_num [abs_of_pos]) (by norm_num [abs_lt]) (by norm_num [abs_lt])]
      norm_num
    rw [calculateQTc_of_ne bazettDouble _ _ "male" (by norm_num) (by norm_num), hb,
      round_interpret_of_bounds _ 450 "male" "Normal" (by norm_num) (by norm_num)
        (hmale _ (by norm_num) (by norm_num))]
    norm_num

/-- Witness of C17: the double evaluation at the input 449.6 with `rr = 1000`. -/
theorem calculateQTc_shows_rounded_witness :
    (3954723422784717 / 8796093022208 : ℚ) ≠ 0 ∧ (1000 : ℚ) ≠ 0 ∧
    ∀ gender,
      calculateQTc bazettDouble (some (3954723422784717 / 8796093022208)) (some 1000) gender =
        (Outcome.done,
          some
            { shown := Math.round (bazettDouble (3954723422784717 / 8796093022208) 1000)
              interpretation :=
                interpretation (bazettDouble (3954723422784717 / 8796093022208) 1000) gender }) :=
  ⟨by norm_num, by norm_num,
    (calculateQTc_shows_rounded bazettDouble (3954723422784717 / 8796093022208) 1000
      (by norm_num) (by norm_num)).1⟩

/-- C16, as stated, fails: the classified value is a double, and the identity
`qtc ^ 2 * rr = 1000 * qt ^ 2` does not hold exactly. For `qt = 400` and `rr = 800` the value is
the double 447.21359549995793 (the fraction below): `rr / 1000` is rounded to the double next
to 0.8, its root to the double next to that root, and the quotient is rounded again. -/
theorem bazettDouble_inexact :
    bazettDouble 400 800 = Num.fin (3933732386813731 / 8796093022208) ∧
    (3933732386813731 / 8796093022208 : ℚ) ^ 2 * 800 ≠ 1000 * 400 ^ 2 := by
  refine ⟨?_, by norm_num⟩
  have h1 : roundDouble (800 / 1000) = Num.fin (3602879701896397 / 4503599627370496) := by
    rw [roundDouble_eq _ (-1) 7205759403792794 (by norm_num) (by norm_num [abs_of_pos])
      (by norm_num [abs_of_pos]) (by norm_num [abs_lt]) (by norm_num [abs_lt])]
    norm_num
  have h2 : sqrtDouble (3602879701896397 / 4503599627370496) =
      8056283928194521 / 9007199254740992 := by
    rw [sqrtDouble_eq _ (-1) 8056283928194521 (by norm_num) (by norm_num) (by norm_num)
      (by norm_num) (by norm_num)]
    norm_num
  have h3 : roundDouble (400 / (8056283928194521 / 9007199254740992)) =
      Num.fin (3933732386813731 / 8796093022208) := by
    rw [roundDouble_eq _ 8 7867464773627462 (by norm_num) (by norm_num [abs_of_pos])
      (by norm_num [abs_of_pos]) (by norm_num [abs_lt]) (by norm_num [abs_lt])]
    norm_num
  unfold bazettDouble
  rw [h1]
  simp only []
  rw [if_neg (by norm_num), if_neg (by norm_num), h2, h3]

/-- C16, amended. For all `qt` and `rr` between `2 ^ (-500)` and `2 ^ 500` (no operation
overflows or underflows there), the value that `calculateQTc` rounds for display and
interprets is the double evaluation of `qt / Math.sqrt(rr / 1000)`: a positive number `qtc`
with `qtc ^ 2 * rr = 1000 * qt ^ 2` up to the rounding of the three operations, which is at
most `2 ^ (-50)` in proportion. So `qt = 400`, `rr = 800`, male has `qtc` between 447.2 and
447.3, shown as 447 and interpreted "Normal", and `qt = 500`, `rr = 800`, female has `qtc`
between 559.0 and 559.1 and is interpreted "Prolongado". -/
theorem bazettDouble_identity (qt rr : ℚ)
    (hqt1 : (2 : ℚ) ^ (-500 : ℤ) ≤ qt) (hqt2 : qt ≤ 2 ^ 500)
    (hrr1 : (2 : ℚ) ^ (-500 : ℤ) ≤ rr) (hrr2 : rr ≤ 2 ^ 500) :
    (∃ v : ℚ, bazettDouble qt rr = Num.fin v ∧ 0 < v ∧
      |v ^ 2 * rr - 1000 * qt ^ 2| ≤ 1000 * qt ^ 2 / 2 ^ 50 ∧
      ∀ gender,
        calculateQTc bazettDouble (some qt) (some rr) gender =
          (Outcome.done,
            some
              { shown := Math.round (Num.fin v)
                interpretation := interpretation (Num.fin v) gender })) ∧
    (∃ v : ℚ, bazettDouble 400 800 = Num.fin v ∧ 447.2 < v ∧ v < 447.3 ∧
      calculateQTc bazettDouble (some 400) (some 800) "male" =
        (Outcome.done, some { shown := Num.fin 447, interpretation := "Normal" })) ∧
    (∃ v : ℚ, bazettDouble 500 800 = Num.fin v ∧ 559.0 < v ∧ v < 559.1 ∧
      calculateQTc bazettDouble (some 500) (some 800) "female" =
        (Outcome.done, some { shown := Num.fin 559, interpretation := "Prolongado" })) := by
  refine ⟨?_, ?_, ?_⟩
  · obtain ⟨v, hv, hvpos, herr⟩ := bazettDouble_accurate qt rr hqt1 hqt2 hrr1 hrr2
    have hqt0 : qt ≠ 0 := (lt_of_lt_of_le (zpow_pos (by norm_num) _) hqt1).ne'
    have hrr0 : rr ≠ 0 := (lt_of_lt_of_le (zpow_pos (by norm_num) _) hrr1).ne'
    refine ⟨v, hv, hvpos, herr, fun gender => ?_⟩
    rw [calculateQTc_of_ne bazettDouble qt rr gender hqt0 hrr0, hv]
  · obtain ⟨v, hv, hlo, hhi⟩ := bazett_example_bounds 400 447.2 447.3
      (le_trans (zpow_le_zpow_right₀ (by norm_num) (by norm_num : (-500 : ℤ) ≤ 0))
        (by norm_num))
      (by norm_num) (by norm_num) (by norm_num) (by norm_num)
    refine ⟨v, hv, hlo, hhi, ?_⟩
    have hi : interpretation (Num.fin v) "male" = "Normal" := by
      have h350 : ¬ v < 350 := by linarith
      have h450 : v < 450 := by linarith
      simp [interpretation, Num.lt, h350, h450]
    rw [calculateQTc_of_ne bazettDouble 400 800 "male" (by norm_num) (by norm_num), hv,
      round_interpret_of_bounds v 447 "male" "Normal" (by push_cast; linarith)
        (by push_cast; linarith) hi]
    norm_num
  · obtain ⟨v, hv, hlo, hhi⟩ := bazett_example_bounds 500 559.0 559.1
      (le_trans (zpow_le_zpow_right₀ (by norm_num) (by norm_num : (-500 : ℤ) ≤ 0))
        (by norm_num))
      (by norm_num) (by norm_num) (by norm_num) (by norm_num)
    refine ⟨v, hv, hlo, hhi, ?_⟩
    have hi : interpretation (Num.fin v) "female" = "Prolongado" := by
      have hf : ¬ (("female" : String) = "male") := by decide
      have h350 : ¬ v < 350 := by linarith
      have h470 : ¬ v < 470 := by linarith
      have h480 : ¬ v < 480 := by linarith
      simp [interpretation, Num.lt, hf, h350, h470, h480]
    rw [calculateQTc_of_ne bazettDouble 500 800 "female" (by norm_num) (by norm_num), hv,
      round_interpret_of_bounds v 559 "female" "Prolongado" (by push_cast; linarith)
        (by push_cast; linarith) hi]
    norm_num

/-- Witness of the amended C16 at `qt = 400`, `rr = 800`. -/
theorem bazettDouble_identity_witness :
    (2 : ℚ) ^ (-500 : ℤ) ≤ 400 ∧ (400 : ℚ) ≤ 2 ^ 500 ∧
    (2 : ℚ) ^ (-500 : ℤ) ≤ 800 ∧ (800 : ℚ) ≤ 2 ^ 500 ∧
    ∃ v : ℚ, bazettDouble 400 800 = Num.fin v ∧ 0 < v ∧
      |v ^ 2 * 800 - 1000 * 400 ^ 2| ≤ 1000 * 400 ^ 2 / 2 ^ 50 ∧
      ∀ gender,
        calculateQTc bazettDouble (some 400) (some 800) gender =
          (Outcome.done,
            some
              { shown := Math.round (Num.fin v)
                interpretation := interpretation (Num.fin v) gender }) :=
  ⟨le_trans (zpow_le_zpow_right₀ (by norm_num) (by norm_num : (-500 : ℤ) ≤ 0)) (by norm_num),
    by norm_num,
    le_trans (zpow_le_zpow_right₀ (by norm_num) (by norm_num : (-500 : ℤ) ≤ 0)) (by norm_num),
    by norm_num,
    (bazettDouble_identity 400 800
      (le_trans (zpow_le_zpow_right₀ (by norm_num) (by norm_num : (-500 : ℤ) ≤ 0))
        (by norm_num))
      (by norm_num)
      (le_trans (zpow_le_zpow_right₀ (by norm_num) (by norm_num : (-500 : ℤ) ≤ 0))
        (by norm_num))
      (by norm_num)).1⟩

end ECGiga
